import Mathlib

/-
  Verification of the inventoryd LwM2M/CoAP/DTLS agent.

  Shallow embedding conventions:
  * Go byte / uint16 / uint32 / uint64 values are modelled as `Nat`,
    with `% 256`, `% 65536`, ... inserted exactly where the Go code
    performs a narrowing conversion or where byte arithmetic overflows.
  * Go `int64` values are modelled as `Int`; a conversion to an
    unsigned type takes the two's-complement residue.
  * Byte slices are `List Nat`.
  * A Go function that can return `-1` / `nil`, or that can panic with
    an out-of-range index, is modelled with `Option`.
  * Library primitives whose internals are irrelevant here
    (IEEE-754 formatting, base64, UTF-8 decoding) are abstracted as a
    record of foreign functions passed to the embedded code.
-/

namespace Inventoryd

/-! ## TLV codec (Lwm2mTLV) -/

/-- The `Lwm2mTLV` struct: TypeOfID (byte, 2 bits used), ID (uint16),
Length (uint32), Value (byte slice), Contents (nested records).
The nested list forces an inductive type rather than a structure. -/
inductive Lwm2mTLV where
  | mk : Nat → Nat → Nat → List Nat → List Lwm2mTLV → Lwm2mTLV

/-- Field `TypeOfID` of `Lwm2mTLV`. -/
def Lwm2mTLV.TypeOfID : Lwm2mTLV → Nat
  | .mk t _ _ _ _ => t

/-- Field `ID` of `Lwm2mTLV`. -/
def Lwm2mTLV.ID : Lwm2mTLV → Nat
  | .mk _ i _ _ _ => i

/-- Field `Length` of `Lwm2mTLV`. -/
def Lwm2mTLV.Length : Lwm2mTLV → Nat
  | .mk _ _ l _ _ => l

/-- Field `Value` of `Lwm2mTLV`. -/
def Lwm2mTLV.Value : Lwm2mTLV → List Nat
  | .mk _ _ _ v _ => v

/-- Field `Contents` of `Lwm2mTLV`. -/
def Lwm2mTLV.Contents : Lwm2mTLV → List Lwm2mTLV
  | .mk _ _ _ _ c => c

/-- `Lwm2mTLV.Marshal`: the header byte is built by the additions of the
source (`TypeOfID<<6`, `+1<<5` for a wide id, `+width<<3` for the length
field); then the id bytes, the length bytes and the raw `Value` follow.
The source's length-width choice is reproduced verbatim, including the
`Length >= 0xFFFF` guard for the 2-byte form. `Contents` is not
marshalled (the source never touches it). -/
def Lwm2mTLV.Marshal (tlv : Lwm2mTLV) : List Nat :=
  let idFlag : Nat := if tlv.ID ≤ 0xFF then 0 else 32
  let idBytes : List Nat :=
    if tlv.ID ≤ 0xFF then [tlv.ID]
    else [(tlv.ID / 256) % 256, tlv.ID % 256]
  let lenFlag : Nat :=
    if tlv.Length ≤ 0x07 then tlv.Length
    else if tlv.Length ≤ 0xFF then 8
    else if 0xFFFF ≤ tlv.Length then 16
    else 24
  let lenBytes : List Nat :=
    if tlv.Length ≤ 0x07 then []
    else if tlv.Length ≤ 0xFF then [tlv.Length % 256]
    else if 0xFFFF ≤ tlv.Length then [(tlv.Length / 256) % 256, tlv.Length % 256]
    else [(tlv.Length / 65536) % 256, (tlv.Length / 256) % 256, tlv.Length % 256]
  ((tlv.TypeOfID * 64) % 256 + idFlag + lenFlag) :: (idBytes ++ (lenBytes ++ tlv.Value))

/-- `Lwm2mTLV.Unmarshal` on a fresh receiver: returns the parsed record
together with the consumed byte count, or `none` where the source
returns `-1` (any truncation).  Bit extraction `(b >> k) & m` is written
`b / 2^k % (m+1)`.  The fresh receiver's `Contents` is Go's `nil`. -/
def Lwm2mTLV.Unmarshal (raw : List Nat) : Option (Lwm2mTLV × Nat) :=
  match raw with
  | [] => none
  | b0 :: r1 =>
    let typeOfID := (b0 / 64) % 4
    let idStep : Option (Nat × Nat × List Nat) :=
      if (b0 / 32) % 2 = 0 then
        match r1 with
        | b1 :: r2 => some (b1, 2, r2)
        | [] => none
      else
        match r1 with
        | b1 :: b2 :: r2 => some (b1 * 256 + b2, 3, r2)
        | _ => none
    match idStep with
    | none => none
    | some (id, i1, r2) =>
      let lengthType := (b0 / 8) % 4
      let lenStep : Option (Nat × Nat × List Nat) :=
        if lengthType = 0 then some (b0 % 8, i1, r2)
        else if lengthType = 1 then
          match r2 with
          | c1 :: r3 => some (c1, i1 + 1, r3)
          | [] => none
        else if lengthType = 2 then
          match r2 with
          | c1 :: c2 :: r3 => some (c1 * 256 + c2, i1 + 2, r3)
          | _ => none
        else
          match r2 with
          | c1 :: c2 :: c3 :: r3 => some (c1 * 65536 + c2 * 256 + c3, i1 + 3, r3)
          | _ => none
      match lenStep with
      | none => none
      | some (len, i2, r3) =>
        if r3.length < len then none
        else some (.mk typeOfID id len (r3.take len) [], i2 + len)

/-- `Lwm2mTLV.TotalLength`, with the source's branch structure
(1 header byte, 1 or 2 id bytes, 0/1/2/3 length bytes with the same
`Length >= 0xFFFF` guard as `Marshal`, plus `len(Value)`). -/
def Lwm2mTLV.TotalLength (tlv : Lwm2mTLV) : Nat :=
  1 + (if tlv.ID ≤ 0xFF then 1 else 2)
    + (if tlv.Length ≤ 0x07 then 0
       else if tlv.Length ≤ 0xFF then 1
       else if 0xFFFF ≤ tlv.Length then 2
       else 3)
    + tlv.Value.length

/-! ## Typed value conversion (convertStringToTLVValue / convertTLVValueToString) -/

/-- Resource data type constants (Appendix C of the LwM2M TS). -/
def lwm2mResourceTypeString : Nat := 0

/-- Integer resource type. -/
def lwm2mResourceTypeInteger : Nat := 1

/-- Float resource type. -/
def lwm2mResourceTypeFloat : Nat := 2

/-- Boolean resource type. -/
def lwm2mResourceTypeBoolean : Nat := 3

/-- Opaque resource type. -/
def lwm2mResourceTypeOpaque : Nat := 4

/-- Time resource type. -/
def lwm2mResourceTypeTime : Nat := 5

/-- Objlnk resource type. -/
def lwm2mResourceTypeObjlnk : Nat := 6

/-- None resource type. -/
def lwm2mResourceTypeNone : Nat := 7

/-- Library primitives the codec defers to (Go standard library);
their internals are outside the embedded program. -/
structure ForeignCodecs where
  /-- `strconv.ParseFloat` + `math.Float64bits` + big-endian `PutUint64`. -/
  float64be : String → List Nat
  /-- `math.Float32frombits` + `strconv.FormatFloat(_, g, 6, 32)` of 4 bytes. -/
  formatFloat32 : List Nat → String
  /-- `math.Float64frombits` + `strconv.FormatFloat(_, g, 6, 64)` of 8 bytes. -/
  formatFloat64 : List Nat → String
  /-- `base64.StdEncoding.EncodeToString`. -/
  base64enc : List Nat → String
  /-- `base64.StdEncoding.DecodeString` with the source's error handling
  (the decoded prefix is kept). -/
  base64dec : String → List Nat
  /-- Go `string(bytes)` UTF-8 decoding. -/
  utf8dec : List Nat → String

/-- A trivial instantiation of the foreign primitives, used to run the
embedded code on concrete inputs whose claims never reach them. -/
def dummyCodecs : ForeignCodecs where
  float64be _ := []
  formatFloat32 _ := ""
  formatFloat64 _ := ""
  base64enc _ := ""
  base64dec _ := []
  utf8dec _ := ""

/-- Decimal digit accumulation over the characters of a string; `none`
on a non-digit, as in `strconv.ParseUint`. -/
def decNat? (acc : Nat) : List Char → Option Nat
  | [] => some acc
  | c :: rest => if c.isDigit then decNat? (acc * 10 + (c.toNat - 48)) rest else none

/-- Base-10 integer syntax of `strconv.ParseInt`: optional sign then a
nonempty digit run. -/
def parseDec? (s : String) : Option Int :=
  match s.data with
  | [] => none
  | '-' :: rest =>
    if rest.isEmpty then none else (decNat? 0 rest).map (fun n => -(n : Int))
  | '+' :: rest =>
    if rest.isEmpty then none else (decNat? 0 rest).map (fun n => (n : Int))
  | cs => (decNat? 0 cs).map (fun n => (n : Int))

/-- `strconv.ParseInt(s, 10, 64)` with the caller discarding the error:
syntax error yields 0, range error yields the clamped bound. -/
def goParseInt64 (s : String) : Int :=
  match parseDec? s with
  | none => 0
  | some n =>
    if n > 2 ^ 63 - 1 then 2 ^ 63 - 1
    else if n < -(2 ^ 63) then -(2 ^ 63)
    else n

/-- Go conversion of a signed value to a `w`-bit unsigned value
(two's-complement residue). -/
def intCast (w : Nat) (n : Int) : Nat := (n % (2 ^ w : Int)).toNat

/-- Big-endian recomposition of two bytes. -/
def be2 (buf : List Nat) : Nat := (buf.getD 0 0) * 256 + buf.getD 1 0

/-- Big-endian recomposition of four bytes. -/
def be4 (buf : List Nat) : Nat :=
  (buf.getD 0 0) * 16777216 + (buf.getD 1 0) * 65536 + (buf.getD 2 0) * 256 + buf.getD 3 0

/-- Big-endian recomposition of eight bytes. -/
def be8 (buf : List Nat) : Nat := (be4 (buf.take 4)) * 4294967296 + be4 (buf.drop 4)

/-- Go cast of a `bits`-wide unsigned value to the signed type of the
same width (`int8`/`int16`/`int32`/`int64`). -/
def toSigned (bits : Nat) (u : Nat) : Int :=
  if u < 2 ^ (bits - 1) then (u : Int) else (u : Int) - 2 ^ bits

/-- Big-endian byte list of a `w`-byte unsigned value (`PutUintNN`). -/
def beBytes : Nat → Nat → List Nat
  | 0, _ => []
  | w + 1, u => (u / 256 ^ w) % 256 :: beBytes w (u % 256 ^ w)

/-- UTF-8 encoding of one code point (Go `[]byte(string)`). -/
def utf8Char (c : Nat) : List Nat :=
  if c < 0x80 then [c]
  else if c < 0x800 then [0xC0 + c / 64, 0x80 + c % 64]
  else if c < 0x10000 then [0xE0 + c / 4096, 0x80 + (c / 64) % 64, 0x80 + c % 64]
  else [0xF0 + c / 262144, 0x80 + (c / 4096) % 64, 0x80 + (c / 64) % 64, 0x80 + c % 64]

/-- Go `[]byte(str)`: UTF-8 bytes of the string. -/
def utf8Enc (s : String) : List Nat := s.data.flatMap (fun c => utf8Char c.toNat)

/-- `strconv.ParseInt(s, 10, 16)` with discarded error (clamped to the
signed 16-bit range). -/
def goParseInt16 (s : String) : Int :=
  match parseDec? s with
  | none => 0
  | some n =>
    if n > 2 ^ 15 - 1 then 2 ^ 15 - 1
    else if n < -(2 ^ 15) then -(2 ^ 15)
    else n

/-- `convertStringToTLVValue`: string form to wire bytes, dispatching on
the resource type exactly like the source switch.  The Integer/Time
branch picks the narrowest of 1/2/4/8 bytes by the source's signed-range
tests. -/
def convertStringToTLVValue (fc : ForeignCodecs) (str : String) (resourceType : Nat) : List Nat :=
  if resourceType = lwm2mResourceTypeInteger ∨ resourceType = lwm2mResourceTypeTime then
    let num := goParseInt64 str
    if num < 2 ^ 7 ∧ num ≥ -(2 ^ 7) then [intCast 8 num]
    else if num < 2 ^ 15 ∧ num ≥ -(2 ^ 15) then beBytes 2 (intCast 16 num)
    else if num < 2 ^ 31 ∧ num ≥ -(2 ^ 31) then beBytes 4 (intCast 32 num)
    else beBytes 8 (intCast 64 num)
  else if resourceType = lwm2mResourceTypeFloat then
    fc.float64be str
  else if resourceType = lwm2mResourceTypeBoolean then
    if str = "true" then [1] else [0]
  else if resourceType = lwm2mResourceTypeOpaque then
    fc.base64dec str
  else if resourceType = lwm2mResourceTypeObjlnk then
    let links := str.splitOn ":"
    let objLinkNum := goParseInt16 (links.getD 0 "")
    let instanceLinkNum := goParseInt16 (links.getD 1 "")
    beBytes 2 (intCast 16 objLinkNum) ++ beBytes 2 (intCast 16 instanceLinkNum)
  else
    utf8Enc str

/-- `convertTLVValueToString`: wire bytes to string form.  In the
Integer/Time branch the 1-byte case is the source's
`strconv.Itoa((int)(buf[0]))` — an unsigned read — while the 2/4/8-byte
cases go through the signed casts `int16`/`int32`/`int64`. -/
def convertTLVValueToString (fc : ForeignCodecs) (buf : List Nat) (resourceType : Nat) : String :=
  if resourceType = lwm2mResourceTypeInteger ∨ resourceType = lwm2mResourceTypeTime then
    if buf.length = 1 then toString (buf.getD 0 0)
    else if buf.length = 2 then toString (toSigned 16 (be2 buf))
    else if buf.length = 4 then toString (toSigned 32 (be4 buf))
    else if buf.length = 8 then toString (toSigned 64 (be8 buf))
    else ""
  else if resourceType = lwm2mResourceTypeFloat then
    if buf.length = 4 then fc.formatFloat32 buf
    else if buf.length = 8 then fc.formatFloat64 buf
    else ""
  else if resourceType = lwm2mResourceTypeBoolean then
    if buf.getD 0 0 = 1 then "true" else "false"
  else if resourceType = lwm2mResourceTypeOpaque then
    fc.base64enc buf
  else if resourceType = lwm2mResourceTypeObjlnk then
    toString (toSigned 16 (be2 buf)) ++ ":" ++ toString (toSigned 16 (be2 (buf.drop 2)))
  else
    fc.utf8dec buf

/-! ## Claims C1, C8, C4 -/

/-- C8: for every TLV record `t`, `TotalLength t = len (Marshal t)` — for all
field values, including lengths at and around the `0xFFFF` boundary between
the 2-byte and 3-byte encodings, and when `len Value` differs from `Length`
(the two functions share the same branch structure byte for byte). -/
theorem tlv_totalLength_eq_marshal_length (t : Lwm2mTLV) :
    t.TotalLength = t.Marshal.length := by
  obtain ⟨tid, id, len, v, c⟩ := t
  simp only [Lwm2mTLV.TotalLength, Lwm2mTLV.Marshal, Lwm2mTLV.TypeOfID, Lwm2mTLV.ID,
    Lwm2mTLV.Length, Lwm2mTLV.Value]
  split_ifs <;> simp [List.length_append] <;> omega

/-- C1 counterexample: a record that carries one nested record in `Contents`
does not survive the marshal/unmarshal roundtrip — `Marshal` never writes
`Contents`, and a fresh `Unmarshal` leaves it empty — refuting the claim
that the roundtrip holds for records carrying nested Contents. -/
theorem tlv_roundtrip_fails_on_nested_contents :
    Lwm2mTLV.Unmarshal ((Lwm2mTLV.mk 3 1 0 [] [Lwm2mTLV.mk 3 2 0 [] []]).Marshal) ≠
      some (Lwm2mTLV.mk 3 1 0 [] [Lwm2mTLV.mk 3 2 0 [] []],
        ((Lwm2mTLV.mk 3 1 0 [] [Lwm2mTLV.mk 3 2 0 [] []]).Marshal).length) := by
  intro h
  rw [show Lwm2mTLV.Unmarshal ((Lwm2mTLV.mk 3 1 0 [] [Lwm2mTLV.mk 3 2 0 [] []]).Marshal) =
      some (Lwm2mTLV.mk 3 1 0 [] [], 2) from rfl] at h
  simp at h

/-- C1 (amended): the marshal/unmarshal roundtrip recovers the record and
consumes exactly `len (Marshal t)` for every record whose type-of-id fits
2 bits, id fits 16 bits, length field is at most `0xFFFF` and equals
`len Value`, and whose `Contents` is empty.  (Lengths above `0xFFFF` are
truncated by the 2-byte branch of the source, a `Value` shorter or longer than
`Length` cannot reproduce, and `Contents` is never marshalled.) -/
theorem tlv_roundtrip_amended (t : Lwm2mTLV) (htid : t.TypeOfID < 4) (hid : t.ID < 65536)
    (hlen : t.Length ≤ 0xFFFF) (hval : t.Value.length = t.Length) (hc : t.Contents = []) :
    Lwm2mTLV.Unmarshal t.Marshal = some (t, t.Marshal.length) := by
  obtain ⟨tid, id, len, v, c⟩ := t
  simp only [Lwm2mTLV.TypeOfID, Lwm2mTLV.ID, Lwm2mTLV.Length, Lwm2mTLV.Value,
    Lwm2mTLV.Contents] at htid hid hlen hval hc
  subst hc
  subst hval
  simp only [Lwm2mTLV.Marshal, Lwm2mTLV.TypeOfID, Lwm2mTLV.ID, Lwm2mTLV.Length, Lwm2mTLV.Value]
  by_cases h1 : id ≤ 255
  · by_cases h2 : v.length ≤ 7
    · simp only [if_pos h1, if_pos h2]
      have e1 : (tid * 64 % 256 + 0 + v.length) / 32 % 2 = 0 := by omega
      have e2 : (tid * 64 % 256 + 0 + v.length) / 8 % 4 = 0 := by omega
      have e3 : (tid * 64 % 256 + 0 + v.length) / 64 % 4 = tid := by omega
      have e4 : (tid * 64 % 256 + 0 + v.length) % 8 = v.length := by omega
      simp only [Lwm2mTLV.Unmarshal, List.nil_append, List.singleton_append, List.cons_append,
        e1, e2, e3, e4, ite_true, List.length_cons, List.take_length, lt_irrefl, ite_false]
      try norm_num [List.take_length]
      try omega
    · by_cases h3 : v.length ≤ 255
      · simp only [if_pos h1, if_neg h2, if_pos h3]
        have e1 : (tid * 64 % 256 + 0 + 8) / 32 % 2 = 0 := by omega
        have e2 : (tid * 64 % 256 + 0 + 8) / 8 % 4 = 1 := by omega
        have e3 : (tid * 64 % 256 + 0 + 8) / 64 % 4 = tid := by omega
        have e5 : v.length % 256 = v.length := by omega
        simp only [Lwm2mTLV.Unmarshal, List.nil_append, List.singleton_append, List.cons_append,
          e1, e2, e3, e5, ite_true, List.length_cons, List.take_length, lt_irrefl, ite_false]
        try norm_num [List.take_length]
        try omega
      · by_cases h4 : 65535 ≤ v.length
        · simp only [if_pos h1, if_neg h2, if_neg h3, if_pos h4]
          have e1 : (tid * 64 % 256 + 0 + 16) / 32 % 2 = 0 := by omega
          have e2 : (tid * 64 % 256 + 0 + 16) / 8 % 4 = 2 := by omega
          have e3 : (tid * 64 % 256 + 0 + 16) / 64 % 4 = tid := by omega
          have e5 : v.length / 256 % 256 * 256 + v.length % 256 = v.length := by omega
          simp only [Lwm2mTLV.Unmarshal, List.nil_append, List.singleton_append, List.cons_append,
            e1, e2, e3, e5, ite_true, List.length_cons, List.take_length, lt_irrefl, ite_false]
          try norm_num [List.take_length]
          try omega
        · simp only [if_pos h1, if_neg h2, if_neg h3, if_neg h4]
          have e1 : (tid * 64 % 256 + 0 + 24) / 32 % 2 = 0 := by omega
          have e2 : (tid * 64 % 256 + 0 + 24) / 8 % 4 = 3 := by omega
          have e3 : (tid * 64 % 256 + 0 + 24) / 64 % 4 = tid := by omega
          have e5 : v.length / 65536 % 256 * 65536 + v.length / 256 % 256 * 256 + v.length % 256 = v.length := by omega
          simp only [Lwm2mTLV.Unmarshal, List.nil_append, List.singleton_append, List.cons_append,
            e1, e2, e3, e5, ite_true, List.length_cons, List.take_length, lt_irrefl, ite_false]
          try norm_num [List.take_length]
          try omega
  · by_cases h2 : v.length ≤ 7
    · simp only [if_neg h1, if_pos h2]
      have e1 : (tid * 64 % 256 + 32 + v.length) / 32 % 2 = 1 := by omega
      have e2 : (tid * 64 % 256 + 32 + v.length) / 8 % 4 = 0 := by omega
      have e3 : (tid * 64 % 256 + 32 + v.length) / 64 % 4 = tid := by omega
      have e4 : (tid * 64 % 256 + 32 + v.length) % 8 = v.length := by omega
      have e6 : id / 256 % 256 * 256 + id % 256 = id := by omega
      simp only [Lwm2mTLV.Unmarshal, List.nil_append, List.singleton_append, List.cons_append,
        e1, e2, e3, e4, e6, ite_true, List.length_cons, List.take_length, lt_irrefl, ite_false]
      try norm_num [List.take_length]
      try omega
    · by_cases h3 : v.length ≤ 255
      · simp only [if_neg h1, if_neg h2, if_pos h3]
        have e1 : (tid * 64 % 256 + 32 + 8) / 32 % 2 = 1 := by omega
        have e2 : (tid * 64 % 256 + 32 + 8) / 8 % 4 = 1 := by omega
        have e3 : (tid * 64 % 256 + 32 + 8) / 64 % 4 = tid := by omega
        have e5 : v.length % 256 = v.length := by omega
        have e6 : id / 256 % 256 * 256 + id % 256 = id := by omega
        simp only [Lwm2mTLV.Unmarshal, List.nil_append, List.singleton_append, List.cons_append,
          e1, e2, e3, e5, e6, ite_true, List.length_cons, List.take_length, lt_irrefl, ite_false]
        try norm_num [List.take_length]
        try omega
      · by_cases h4 : 65535 ≤ v.length
        · simp only [if_neg h1, if_neg h2, if_neg h3, if_pos h4]
          have e1 : (tid * 64 % 256 + 32 + 16) / 32 % 2 = 1 := by omega
          have e2 : (tid * 64 % 256 + 32 + 16) / 8 % 4 = 2 := by omega
          have e3 : (tid * 64 % 256 + 32 + 16) / 64 % 4 = tid := by omega
          have e5 : v.length / 256 % 256 * 256 + v.length % 256 = v.length := by omega
          have e6 : id / 256 % 256 * 256 + id % 256 = id := by omega
          simp only [Lwm2mTLV.Unmarshal, List.nil_append, List.singleton_append, List.cons_append,
            e1, e2, e3, e5, e6, ite_true, List.length_cons, List.take_length, lt_irrefl, ite_false]
          try norm_num [List.take_length]
          try omega
        · simp only [if_neg h1, if_neg h2, if_neg h3, if_neg h4]
          have e1 : (tid * 64 % 256 + 32 + 24) / 32 % 2 = 1 := by omega
          have e2 : (tid * 64 % 256 + 32 + 24) / 8 % 4 = 3 := by omega
          have e3 : (tid * 64 % 256 + 32 + 24) / 64 % 4 = tid := by omega
          have e5 : v.length / 65536 % 256 * 65536 + v.length / 256 % 256 * 256 + v.length % 256 = v.length := by omega
          have e6 : id / 256 % 256 * 256 + id % 256 = id := by omega
          simp only [Lwm2mTLV.Unmarshal, List.nil_append, List.singleton_append, List.cons_append,
            e1, e2, e3, e5, e6, ite_true, List.length_cons, List.take_length, lt_irrefl, ite_false]
          try norm_num [List.take_length]
          try omega

/-- C1 witness: the amended roundtrip at the concrete record
type=Resource, id=3, length=1, value=[0x2A]. -/
theorem tlv_roundtrip_amended_witness :
    (Lwm2mTLV.mk 3 3 1 [42] []).Contents = [] ∧
    Lwm2mTLV.Unmarshal ((Lwm2mTLV.mk 3 3 1 [42] []).Marshal) =
      some (Lwm2mTLV.mk 3 3 1 [42] [], ((Lwm2mTLV.mk 3 3 1 [42] []).Marshal).length) :=
  ⟨rfl, tlv_roundtrip_amended (Lwm2mTLV.mk 3 3 1 [42] [])
    (by decide) (by decide) (by decide) (by decide) rfl⟩

/-- C4 (code bug): the decimal string "-1" encodes to the single TLV byte
`0xFF`, but decoding reads the byte back unsigned
(`strconv.Itoa((int)(buf[0]))`), producing "255" instead of the original
"-1" — against both the claim and the signed-integer comment in the source
and the spec table. -/
theorem integer_string_roundtrip_bug :
    convertTLVValueToString dummyCodecs
        (convertStringToTLVValue dummyCodecs "-1" lwm2mResourceTypeInteger)
        lwm2mResourceTypeInteger = "255" ∧ ("255" : String) ≠ "-1" :=
  ⟨rfl, by decide⟩

/-! ## CoAP message layer (Coap / CoapMessage / CoapOption) -/

/-- CoAP message type Confirmable. -/
def CoapTypeConfirmable : Nat := 0

/-- CoAP message type NonConfirmable. -/
def CoapTypeNonConfirmable : Nat := 1

/-- CoAP message type Acknowledgement. -/
def CoapTypeAcknowledgement : Nat := 2

/-- CoAP message type Reset. -/
def CoapTypeReset : Nat := 3

/-- 0.01 GET. -/
def CoapCodeGet : Nat := 1

/-- 2.05 Content. -/
def CoapCodeContent : Nat := 69

/-- 2.04 Changed. -/
def CoapCodeChanged : Nat := 68

/-- 4.04 Not Found. -/
def CoapCodeNotFound : Nat := 132

/-- 4.05 Method Not Allowed. -/
def CoapCodeNotAllowed : Nat := 133

/-- Content format: application/vnd.oma.lwm2m+tlv. -/
def coapContentFormatLwm2mTLV : Nat := 11542

/-- Observe option number. -/
def coapOptionNoObserve : Nat := 6

/-- URI-Path option number. -/
def coapOptionNoURIPath : Nat := 11

/-- Content-Format option number. -/
def coapOptionNoContentFormat : Nat := 12

/-- Observe register flag byte. -/
def coapObserveRegister : Nat := 0

/-- Option nibble escape for 1-byte extension. -/
def coapOptCodeByte : Nat := 13

/-- Option nibble escape for 2-byte extension. -/
def coapOptCodeWord : Nat := 14

/-- Base added by the 1-byte extension. -/
def coapOptByteBase : Nat := 13

/-- Base added by the 2-byte extension. -/
def coapOptWordBase : Nat := 269

/-- `CoapOption`: option number (Go `uint`) and value bytes. -/
structure CoapOption where
  No : Nat
  Value : List Nat
  deriving DecidableEq

/-- `CoapOption.BuildOption`: one delta-coded option.  `delta = No - base`
(the only caller sorts by number first, so no underflow occurs).  The
source guards the LENGTH width with `delta < coapOptWordBase` — the
delta threshold — which this embedding reproduces; byte casts of values
that can exceed a byte keep their `% 256`, and the `length - 269`
subtraction is Go two's-complement `int`/`uint` arithmetic, modelled
as addition of `2^64 - 269` modulo `2^64`. -/
def CoapOption.BuildOption (option : CoapOption) (base : Nat) : List Nat :=
  let delta := option.No - base
  let length := option.Value.length
  let deltaFlag : Nat :=
    if delta < coapOptByteBase then delta * 16
    else if delta < coapOptWordBase then coapOptCodeByte * 16
    else coapOptCodeWord * 16
  let deltaBytes : List Nat :=
    if delta < coapOptByteBase then []
    else if delta < coapOptWordBase then [delta - coapOptByteBase]
    else [(delta - coapOptWordBase) / 256 % 256, (delta - coapOptWordBase) % 256]
  let lenFlag : Nat :=
    if length < coapOptByteBase then length
    else if delta < coapOptWordBase then coapOptCodeByte
    else coapOptCodeWord
  let lenBytes : List Nat :=
    if length < coapOptByteBase then []
    else if delta < coapOptWordBase then [(length - coapOptByteBase) % 256]
    else [(length + 2 ^ 64 - coapOptWordBase) % 2 ^ 64 / 256 % 256,
          (length + 2 ^ 64 - coapOptWordBase) % 2 ^ 64 % 256]
  (deltaFlag + lenFlag) :: (deltaBytes ++ (lenBytes ++ option.Value))

/-- Ordered insertion by option number (helper for `sortByNo`). -/
def insertByNo (o : CoapOption) : List CoapOption → List CoapOption
  | [] => [o]
  | x :: xs => if o.No < x.No then o :: x :: xs else x :: insertByNo o xs

/-- The sort of `CoapMessage.BuildOptions` (`sort.Slice` with comparator
`No < No`; the Go sort is unspecified on ties, this model keeps the
original order there). -/
def sortByNo : List CoapOption → List CoapOption
  | [] => []
  | x :: xs => insertByNo x (sortByNo xs)

/-- `CoapMessage.BuildOptions`: sort by number, then emit each option
against the previous number as base (base starts at 0). -/
def buildOptionsList (options : List CoapOption) : List Nat :=
  ((sortByNo options).foldl
    (fun (acc : List Nat × Nat) o => (acc.1 ++ o.BuildOption acc.2, o.No)) ([], 0)).1

/-- `CoapOption.ParseOption`: one delta-coded option; returns the option
and its byte span, `none` for a Go index panic on truncated input.
Reproduces the byte-overflowing `raw[1] + coapOptByteBase` additions
(mod 256) and the vacuous `(uint)(raw[k]) >> 8` (written `/ 256`) of the
source. -/
def CoapOption.ParseOption (raw : List Nat) (base : Nat) : Option (CoapOption × Nat) :=
  match raw.get? 0 with
  | none => none
  | some b0 =>
    let d0 := b0 / 16
    let deltaStep : Option (Nat × Nat) :=
      if d0 = coapOptCodeByte then
        match raw.get? 1 with
        | none => none
        | some b1 => some ((b1 + coapOptByteBase) % 256, 1)
      else if d0 = coapOptCodeWord then
        match raw.get? 1, raw.get? 2 with
        | some b1, some b2 => some (b1 / 256 + b2 + coapOptWordBase, 2)
        | _, _ => none
      else some (d0, 0)
    match deltaStep with
    | none => none
    | some (delta, deltaLength) =>
      let l0 := b0 % 16
      let lenStep : Option (Nat × Nat) :=
        if l0 = coapOptCodeByte then
          match raw.get? (1 + deltaLength) with
          | none => none
          | some c1 => some ((c1 + coapOptByteBase) % 256, 1)
        else if l0 = coapOptCodeWord then
          match raw.get? (1 + deltaLength), raw.get? (2 + deltaLength) with
          | some c1, some c2 => some (c1 / 256 + c2 + coapOptWordBase, 2)
          | _, _ => none
        else some (l0, 0)
      match lenStep with
      | none => none
      | some (length, lengthLength) =>
        if raw.length < 1 + deltaLength + lengthLength + length then none
        else some (⟨base + delta, (raw.drop (1 + deltaLength + lengthLength)).take length⟩,
          1 + deltaLength + lengthLength + length)

/-- The loop of `CoapMessage.ParseOptions`: parse options until the end
of the data or a `0xFF` payload marker.  `fuel` bounds the iteration
count (each parsed option spans at least one byte, so `raw.length + 1`
rounds always suffice); `none` propagates a Go index panic. -/
def parseOptionsLoop (raw : List Nat) :
    Nat → Nat → Nat → List CoapOption → Option (List CoapOption × Nat)
  | 0, length, _, _ => some ([], length)
  | fuel + 1, length, base, acc =>
    if raw.length > length ∧ raw.getD length 0 ≠ 0xFF then
      match CoapOption.ParseOption (raw.drop length) base with
      | none => none
      | some (o, optionLength) =>
        parseOptionsLoop raw fuel (length + optionLength) o.No (acc ++ [o])
    else if raw.length > length ∧ raw.getD length 0 = 0xFF then
      some (acc, length + 1)
    else
      some (acc, length)

/-- `CoapMessage.ParseOptions` as a function of the raw option bytes:
the parsed options and the length of the option region. -/
def parseOptionsList (raw : List Nat) : Option (List CoapOption × Nat) :=
  parseOptionsLoop raw (raw.length + 1) 0 0 []

/-- `CoapMessage`: version, type, token length, code, message id, token,
options, payload (RFC 7252 section 3). -/
structure CoapMessage where
  Version : Nat
  /-- The source field `Type` (a Lean keyword). -/
  Typ : Nat
  TokenLength : Nat
  Code : Nat
  MessageID : Nat
  Token : List Nat
  Options : List CoapOption
  Payload : List Nat
  deriving DecidableEq

/-- Outcome of `Coap.ParseMessage`: a parsed message, the source's `nil`,
or a Go index panic inside option parsing. -/
inductive CoapParse where
  | oob : CoapParse
  | noMessage : CoapParse
  | msg : CoapMessage → CoapParse
  deriving DecidableEq

/-- `Coap.ParseMessage`: header and token bounds checks return `nil`
(`noMessage`); option parsing may panic (`oob`); otherwise the message. -/
def Coap.ParseMessage (raw : List Nat) : CoapParse :=
  if raw.length < 4 then .noMessage
  else
    let version := raw.getD 0 0 / 64
    let mtype := raw.getD 0 0 / 16 % 4
    let tokenLength := raw.getD 0 0 % 16
    let code := raw.getD 1 0
    let messageID := (raw.getD 2 0) * 256 + raw.getD 3 0
    if raw.length < 4 + tokenLength then .noMessage
    else
      let token := (raw.drop 4).take tokenLength
      match parseOptionsList (raw.drop (4 + tokenLength)) with
      | none => .oob
      | some (options, optionsLength) =>
        .msg ⟨version, mtype, tokenLength, code, messageID, token, options,
          raw.drop (4 + tokenLength + optionsLength)⟩

/-- `CoapMessage.IsObserve`: true when an Observe option is present. -/
def CoapMessage.IsObserve (message : CoapMessage) : Bool :=
  message.Options.any (fun o => o.No = coapOptionNoObserve)


/-! ## Claims C3, C10 -/

/-- C3 (code bug): building the single option number 268 (1-byte delta
extension, bytes `D0 FF`) and parsing it back yields option number 12,
not 268 — the parser adds `coapOptByteBase` to the extension byte in Go
`byte` arithmetic, wrapping modulo 256 — so `parse(build(opts))` is not
`sort_by_no(opts)` on the extension ranges the claim includes. -/
theorem coap_option_roundtrip_bug :
    buildOptionsList [⟨268, []⟩] = [0xD0, 0xFF] ∧
    parseOptionsList (buildOptionsList [⟨268, []⟩]) = some ([⟨12, []⟩], 2) ∧
    sortByNo [⟨268, []⟩] = [⟨268, []⟩] ∧
    (⟨12, []⟩ : CoapOption) ≠ ⟨268, []⟩ :=
  ⟨rfl, by decide, rfl, by decide⟩

/-- C10 (code bug): the 5-byte datagram `40 01 00 00 D0` has a valid CoAP
header, so it passes both nil-returning checks, but its option region is
a lone delta-nibble-13 byte announcing an extension byte that is absent:
`ParseOption` reads `raw[1]` out of range (a Go panic), not the nil
return documented for `ParseMessage`. -/
theorem coap_parse_truncated_option_oob :
    Coap.ParseMessage [0x40, 0x01, 0x00, 0x00, 0xD0] = CoapParse.oob ∧
    CoapParse.oob ≠ CoapParse.noMessage :=
  ⟨by decide, by decide⟩

/-! ## LwM2M data model and observation records -/

/-- `Lwm2mResourceDefinition` (field `Type` is spelled `Typ`, a Lean
keyword). -/
structure Lwm2mResourceDefinition where
  ID : Nat
  Name : String
  Multi : Bool
  Mandatory : Bool
  Readable : Bool
  Writable : Bool
  Excutable : Bool
  /-- The source field `Type`. -/
  Typ : Nat
  deriving DecidableEq

/-- `Lwm2mObjectDefinition`. -/
structure Lwm2mObjectDefinition where
  ID : Nat
  Name : String
  Multi : Bool
  Mandatory : Bool
  Resources : List Lwm2mResourceDefinition
  deriving DecidableEq

/-- `Lwm2mObject`: id plus its definition (a possibly nil pointer). -/
structure Lwm2mObject where
  ID : Nat
  Definition : Option Lwm2mObjectDefinition
  deriving DecidableEq

/-- `Lwm2mInstance`. -/
structure Lwm2mInstance where
  ID : Nat
  objectID : Nat
  deriving DecidableEq

/-- `Lwm2mResource`: ids plus the resource definition (a possibly nil
pointer). -/
structure Lwm2mResource where
  ID : Nat
  objectID : Nat
  instanceID : Nat
  Definition : Option Lwm2mResourceDefinition
  deriving DecidableEq

/-- `Lwm2mObservedResource`. -/
structure Lwm2mObservedResource where
  token : List Nat
  messageID : Nat
  observeCount : Nat
  resource : Lwm2mResource
  lastValue : String
  deriving DecidableEq

/-- `Lwm2mObservedInstance` (field `instance` is spelled `inst`, a Lean
keyword). -/
structure Lwm2mObservedInstance where
  token : List Nat
  messageID : Nat
  observeCount : Nat
  /-- The source field `instance`. -/
  inst : Lwm2mInstance
  resources : List Lwm2mObservedResource
  deriving DecidableEq

/-! ## ObserveDeregister (claim C9) -/

/-- The `foundIndex` loop of `ObserveDeregister`: scan the whole list,
overwriting the accumulator on every match, so the LAST matching index
survives; Go's `-1` is `none`. -/
def lastMatchIndexAux (mid : Nat) (getMid : α → Nat) :
    List α → Nat → Option Nat → Option Nat
  | [], _, acc => acc
  | e :: rest, i, acc =>
    lastMatchIndexAux mid getMid rest (i + 1) (if getMid e = mid then some i else acc)

/-- The copy-based deletion of `ObserveDeregister`: a fresh slice of
length `n-1` receives the prefix before `i` and the suffix after `i`. -/
def deleteAt (l : List α) (i : Nat) : List α := l.take i ++ l.drop (i + 1)

/-- `Lwm2m.ObserveDeregister`: remove the observation whose `messageID`
matches the RST message; the observed-instance sequence is searched
first and, on a hit, the function returns without touching the
observed-resource sequence. -/
def ObserveDeregister (observedInstance : List Lwm2mObservedInstance)
    (observedResource : List Lwm2mObservedResource) (mid : Nat) :
    List Lwm2mObservedInstance × List Lwm2mObservedResource :=
  match lastMatchIndexAux mid (fun o => o.messageID) observedInstance 0 none with
  | some i => (deleteAt observedInstance i, observedResource)
  | none =>
    match lastMatchIndexAux mid (fun o => o.messageID) observedResource 0 none with
    | some i => (observedInstance, deleteAt observedResource i)
    | none => (observedInstance, observedResource)

/-- Recursive specification of the last matching index, used to reason
about `lastMatchIndexAux`. -/
def lastMatchIdx? (mid : Nat) (getMid : α → Nat) : List α → Option Nat
  | [] => none
  | e :: rest =>
    match lastMatchIdx? mid getMid rest with
    | some k => some (k + 1)
    | none => if getMid e = mid then some 0 else none

theorem lastMatchIndexAux_eq (mid : Nat) (getMid : α → Nat) :
    ∀ (l : List α) (i : Nat) (acc : Option Nat),
      lastMatchIndexAux mid getMid l i acc =
        match lastMatchIdx? mid getMid l with
        | some k => some (i + k)
        | none => acc := by
  intro l
  induction l with
  | nil => intro i acc; rfl
  | cons e rest ih =>
    intro i acc
    simp only [lastMatchIndexAux, lastMatchIdx?, ih]
    cases hr : lastMatchIdx? mid getMid rest with
    | some k =>
      have : i + 1 + k = i + (k + 1) := by omega
      simp [this]
    | none =>
      by_cases hm : getMid e = mid <;> simp [hm]

theorem lastMatchIdx?_none_iff (mid : Nat) (getMid : α → Nat) :
    ∀ l : List α, lastMatchIdx? mid getMid l = none ↔ ∀ e ∈ l, getMid e ≠ mid := by
  intro l
  induction l with
  | nil => simp [lastMatchIdx?]
  | cons e rest ih =>
    simp only [lastMatchIdx?]
    cases hr : lastMatchIdx? mid getMid rest with
    | some k =>
      constructor
      · intro h; exact Option.noConfusion h
      · intro hall
        have h0 : lastMatchIdx? mid getMid rest = none :=
          ih.mpr (fun x hx => hall x (List.mem_cons_of_mem e hx))
        rw [h0] at hr
        exact Option.noConfusion hr
    | none =>
      by_cases hm : getMid e = mid <;> simp [hm, ← ih, hr]

theorem lastMatchIdx?_some (mid : Nat) (getMid : α → Nat) :
    ∀ (l : List α) (k : Nat), lastMatchIdx? mid getMid l = some k →
      ∃ pre e suf, l = pre ++ e :: suf ∧ pre.length = k ∧ getMid e = mid ∧
        (∀ x ∈ suf, getMid x ≠ mid) ∧ deleteAt l k = pre ++ suf := by
  intro l
  induction l with
  | nil => intro k h; exact Option.noConfusion h
  | cons e rest ih =>
    intro k h
    simp only [lastMatchIdx?] at h
    cases hr : lastMatchIdx? mid getMid rest with
    | some k0 =>
      rw [hr] at h
      simp only [Option.some.injEq] at h
      obtain ⟨pre, x, suf, hsplit, hlen, hmatch, hsuf, hdel⟩ := ih k0 hr
      refine ⟨e :: pre, x, suf, by simp [hsplit], by simp [hlen]; omega, hmatch, hsuf, ?_⟩
      have hk : k = k0 + 1 := by omega
      subst hk
      simp only [deleteAt, List.take_succ_cons, List.drop_succ_cons, List.cons_append]
      simp only [deleteAt] at hdel
      rw [hdel]
    | none =>
      rw [hr] at h
      by_cases hm : getMid e = mid
      · rw [if_pos hm] at h
        simp only [Option.some.injEq] at h
        subst h
        exact ⟨[], e, rest, by simp, rfl, hm,
          (lastMatchIdx?_none_iff mid getMid rest).mp hr, by simp [deleteAt]⟩
      · rw [if_neg hm] at h
        exact Option.noConfusion h

/-- C9: frame effect of `ObserveDeregister`.  With no matching
message-id the state is untouched; a match among observed instances
removes exactly the last matching instance entry (order of the rest
preserved) and leaves the resource sequence alone; a match found only
among observed resources removes exactly the last matching resource
entry and leaves the instance sequence alone. -/
theorem observeDeregister_frame (insts : List Lwm2mObservedInstance)
    (ress : List Lwm2mObservedResource) (mid : Nat) :
    ((∀ e ∈ insts, e.messageID ≠ mid) → (∀ e ∈ ress, e.messageID ≠ mid) →
      ObserveDeregister insts ress mid = (insts, ress)) ∧
    ((∃ e ∈ insts, e.messageID = mid) →
      ∃ pre x suf, insts = pre ++ x :: suf ∧ x.messageID = mid ∧
        (∀ y ∈ suf, y.messageID ≠ mid) ∧
        ObserveDeregister insts ress mid = (pre ++ suf, ress)) ∧
    ((∀ e ∈ insts, e.messageID ≠ mid) → (∃ e ∈ ress, e.messageID = mid) →
      ∃ pre x suf, ress = pre ++ x :: suf ∧ x.messageID = mid ∧
        (∀ y ∈ suf, y.messageID ≠ mid) ∧
        ObserveDeregister insts ress mid = (insts, pre ++ suf)) := by
  refine ⟨?_, ?_, ?_⟩
  · intro hi hr
    have h1 : lastMatchIdx? mid (fun o => o.messageID) insts = none :=
      (lastMatchIdx?_none_iff _ _ _).mpr hi
    have h2 : lastMatchIdx? mid (fun o => o.messageID) ress = none :=
      (lastMatchIdx?_none_iff _ _ _).mpr hr
    simp [ObserveDeregister, lastMatchIndexAux_eq, h1, h2]
  · intro hex
    have h1 : lastMatchIdx? mid (fun o => o.messageID) insts ≠ none := by
      intro hn
      obtain ⟨e, he, hm⟩ := hex
      exact ((lastMatchIdx?_none_iff _ _ _).mp hn e he) hm
    obtain ⟨k, hk⟩ := Option.ne_none_iff_exists.mp h1
    obtain ⟨pre, x, suf, hsplit, _, hmatch, hsuf, hdel⟩ :=
      lastMatchIdx?_some _ _ insts k hk.symm
    refine ⟨pre, x, suf, hsplit, hmatch, hsuf, ?_⟩
    simp [ObserveDeregister, lastMatchIndexAux_eq, ← hk, hdel]
  · intro hi hex
    have h1 : lastMatchIdx? mid (fun o => o.messageID) insts = none :=
      (lastMatchIdx?_none_iff _ _ _).mpr hi
    have h2 : lastMatchIdx? mid (fun o => o.messageID) ress ≠ none := by
      intro hn
      obtain ⟨e, he, hm⟩ := hex
      exact ((lastMatchIdx?_none_iff _ _ _).mp hn e he) hm
    obtain ⟨k, hk⟩ := Option.ne_none_iff_exists.mp h2
    obtain ⟨pre, x, suf, hsplit, _, hmatch, hsuf, hdel⟩ :=
      lastMatchIdx?_some _ _ ress k hk.symm
    refine ⟨pre, x, suf, hsplit, hmatch, hsuf, ?_⟩
    simp [ObserveDeregister, lastMatchIndexAux_eq, h1, ← hk, hdel]

/-- A concrete observed resource used by the C9 witness. -/
def obsRes7 : Lwm2mObservedResource := ⟨[1, 2], 7, 0, ⟨9, 3, 0, none⟩, "45"⟩

/-- C9 witness: deregistering message-id 7 against an empty
observed-instance sequence and a one-entry observed-resource sequence
removes that entry. -/
theorem observeDeregister_frame_witness :
    ∃ pre x suf, ([obsRes7] : List Lwm2mObservedResource) = pre ++ x :: suf ∧
      x.messageID = 7 ∧ (∀ y ∈ suf, y.messageID ≠ 7) ∧
      ObserveDeregister [] [obsRes7] 7 = ([], pre ++ suf) :=
  (observeDeregister_frame [] [obsRes7] 7).2.2 (by simp)
    ⟨obsRes7, by simp, by decide⟩

/-! ## LwM2M agent: definition lookups, handler, read dispatch -/

/-- TLV type-of-identifier for a Resource. -/
def lwm2mTLVTypeResouce : Nat := 3

/-- `findObjectDefinitionByID`: first definition with the id (loop with
break). -/
def findObjectDefinitionByID (defs : List Lwm2mObjectDefinition) (objectID : Nat) :
    Option Lwm2mObjectDefinition :=
  defs.find? (fun o => o.ID = objectID)

/-- `Lwm2mObjectDefinition.findResourceByID`: first resource definition
with the id. -/
def findResourceByID (definition : Lwm2mObjectDefinition) (resourceID : Nat) :
    Option Lwm2mResourceDefinition :=
  definition.Resources.find? (fun r => r.ID = resourceID)

/-- `findResourceDefinitionByIDs`. -/
def findResourceDefinitionByIDs (defs : List Lwm2mObjectDefinition)
    (objectID resourceID : Nat) : Option Lwm2mResourceDefinition :=
  match findObjectDefinitionByID defs objectID with
  | none => none
  | some d => findResourceByID d resourceID

/-- The `Lwm2mHandler` interface restricted to the operations the read
and observe paths call, as pure functions (each returns its value
together with a CoAP code). -/
structure Lwm2mHandler where
  ListObjectIDs : List Nat × Nat
  ListInstanceIDs : Lwm2mObject → List Nat × Nat
  ListResourceIDs : Lwm2mInstance → List Nat × Nat
  ReadResource : Lwm2mResource → String × Nat

/-- `Lwm2m.findInstance`: existence checks against the handler's object
and instance lists. -/
def findInstance (defs : List Lwm2mObjectDefinition) (h : Lwm2mHandler)
    (objectID instanceID : Nat) : Option Lwm2mInstance :=
  let (objectIDs, code) := h.ListObjectIDs
  if code ≠ CoapCodeContent then none
  else if ¬ objectID ∈ objectIDs then none
  else
    let definition := findObjectDefinitionByID defs objectID
    let (instanceIDs, code2) := h.ListInstanceIDs ⟨objectID, definition⟩
    if code2 ≠ CoapCodeContent then none
    else if ¬ instanceID ∈ instanceIDs then none
    else some ⟨instanceID, objectID⟩

/-- `Lwm2m.findResource`: existence checks against the handler's object,
instance and resource lists; the returned descriptor carries the
(possibly missing) resource definition. -/
def findResource (defs : List Lwm2mObjectDefinition) (h : Lwm2mHandler)
    (objectID instanceID resourceID : Nat) : Option Lwm2mResource :=
  let (objectIDs, code) := h.ListObjectIDs
  if code ≠ CoapCodeContent then none
  else if ¬ objectID ∈ objectIDs then none
  else
    let definition := findObjectDefinitionByID defs objectID
    let (instanceIDs, code2) := h.ListInstanceIDs ⟨objectID, definition⟩
    if code2 ≠ CoapCodeContent then none
    else if ¬ instanceID ∈ instanceIDs then none
    else
      let (resourceIDs, code3) := h.ListResourceIDs ⟨instanceID, objectID⟩
      if code3 ≠ CoapCodeContent then none
      else if ¬ resourceID ∈ resourceIDs then none
      else some ⟨resourceID, objectID, instanceID,
        findResourceDefinitionByIDs defs objectID resourceID⟩

/-- `Coap.SendResponse`: the ACK message built for a request (version 1,
type ACK, the request's message id, token and token length). -/
def SendResponse (request : CoapMessage) (code : Nat) (options : List CoapOption)
    (payload : List Nat) : CoapMessage :=
  ⟨1, CoapTypeAcknowledgement, request.TokenLength, code, request.MessageID,
    request.Token, options, payload⟩

/-- Mutable agent state touched by the read/observe paths. -/
structure Lwm2mState where
  definitions : List Lwm2mObjectDefinition
  handler : Lwm2mHandler
  observedInstance : List Lwm2mObservedInstance
  observedResource : List Lwm2mObservedResource

/-- `Lwm2m.processReadResource`: 4.04 when the resource does not
resolve, 4.05 when it is not readable (or the handler read fails),
otherwise a 2.05 Content carrying the TLV payload and content-format
11542, plus an Observe(0) option and a new observation on an observe
request.  `none` models the Go nil-pointer dereference that occurs when
the resolved resource has no definition. -/
def processReadResource (fc : ForeignCodecs) (s : Lwm2mState)
    (objectID instanceID resourceID : Nat) (message : CoapMessage) :
    Option (CoapMessage × Lwm2mState) :=
  match findResource s.definitions s.handler objectID instanceID resourceID with
  | none => some (SendResponse message CoapCodeNotFound [] [], s)
  | some resource =>
    let isObserve := message.IsObserve
    match resource.Definition with
    | none => none
    | some definition =>
      if ¬ definition.Readable then
        some (SendResponse message CoapCodeNotAllowed [] [], s)
      else
        let (resourceValue, code) := s.handler.ReadResource resource
        if code ≠ CoapCodeContent then
          some (SendResponse message CoapCodeNotAllowed [] [], s)
        else
          let resourceTLVValue := convertStringToTLVValue fc resourceValue definition.Typ
          let tlv : Lwm2mTLV :=
            .mk lwm2mTLVTypeResouce resourceID resourceTLVValue.length resourceTLVValue []
          let payload := tlv.Marshal
          let contentFormat := [coapContentFormatLwm2mTLV / 256 % 256, coapContentFormatLwm2mTLV % 256]
          if isObserve then
            some (SendResponse message CoapCodeContent
              [⟨coapOptionNoContentFormat, contentFormat⟩,
               ⟨coapOptionNoObserve, [coapObserveRegister]⟩] payload,
              { s with observedResource := s.observedResource ++
                [⟨message.Token, 0, 0, resource, resourceValue⟩] })
          else
            some (SendResponse message CoapCodeContent
              [⟨coapOptionNoContentFormat, contentFormat⟩] payload, s)

/-- The per-resource loop of `processReadInstance`: TLV payload for each
readable resource whose read succeeds, plus the observation entries
collected on an observe request (token and message id left at their zero
values, as in the source).  `none` models the nil dereference on a
resource without definition (or a `findResource` miss inside the
loop). -/
def readInstanceLoop (fc : ForeignCodecs) (defs : List Lwm2mObjectDefinition)
    (h : Lwm2mHandler) (objectID instanceID : Nat) (isObserve : Bool) :
    List Nat → Option (List Nat × List Lwm2mObservedResource)
  | [] => some ([], [])
  | resourceID :: rest =>
    match findResource defs h objectID instanceID resourceID with
    | none => none
    | some resource =>
      match resource.Definition with
      | none => none
      | some definition =>
        if definition.Readable then
          let (resourceValue, code) := h.ReadResource resource
          if code ≠ CoapCodeContent then
            readInstanceLoop fc defs h objectID instanceID isObserve rest
          else
            let resourceTLVValue := convertStringToTLVValue fc resourceValue definition.Typ
            let tlv : Lwm2mTLV :=
              .mk lwm2mTLVTypeResouce resourceID resourceTLVValue.length resourceTLVValue []
            match readInstanceLoop fc defs h objectID instanceID isObserve rest with
            | none => none
            | some (payload, obs) =>
              some (tlv.Marshal ++ payload,
                (if isObserve then [⟨[], 0, 0, resource, resourceValue⟩] else []) ++ obs)
        else
          readInstanceLoop fc defs h objectID instanceID isObserve rest

/-- `Lwm2m.processReadInstance`: 4.04 when the instance does not
resolve, 4.05 when the handler cannot list its resources, otherwise a
2.05 Content with the concatenated TLVs of the readable resources —
with an Observe(0) option and a new instance observation when the
request observes. -/
def processReadInstance (fc : ForeignCodecs) (s : Lwm2mState)
    (objectID instanceID : Nat) (message : CoapMessage) :
    Option (CoapMessage × Lwm2mState) :=
  match findInstance s.definitions s.handler objectID instanceID with
  | none => some (SendResponse message CoapCodeNotFound [] [], s)
  | some inst =>
    let isObserve := message.IsObserve
    let (resourceIDs, code) := s.handler.ListResourceIDs inst
    if code ≠ CoapCodeContent then
      some (SendResponse message CoapCodeNotAllowed [] [], s)
    else
      match readInstanceLoop fc s.definitions s.handler objectID instanceID isObserve resourceIDs with
      | none => none
      | some (payload, obs) =>
        let contentFormat := [coapContentFormatLwm2mTLV / 256 % 256, coapContentFormatLwm2mTLV % 256]
        if isObserve then
          some (SendResponse message CoapCodeContent
            [⟨coapOptionNoContentFormat, contentFormat⟩,
             ⟨coapOptionNoObserve, [coapObserveRegister]⟩] payload,
            { s with observedInstance := s.observedInstance ++
              [⟨message.Token, 0, 0, inst, obs⟩] })
        else
          some (SendResponse message CoapCodeContent
            [⟨coapOptionNoContentFormat, contentFormat⟩] payload, s)

/-! ## Observe tick and Notify -/

/-- The observe-counter packing: a big-endian `PutUint32` buffer sliced
to the minimal 1/2/3/4 bytes. -/
def observeCountBuf (c : Nat) : List Nat :=
  let buf := [c / 16777216 % 256, c / 65536 % 256, c / 256 % 256, c % 256]
  if c ≤ 0xff then buf.drop 3
  else if c ≤ 0xffff then buf.drop 2
  else if c ≤ 0xffffff then buf.drop 1
  else buf

/-- `Lwm2m.NotifyResource`: no message when the resource is unreadable,
the read fails, or the value is unchanged; otherwise one NON
(`SendRelatedMessage`) with the observation's token, content-format
11542, the Observe counter bytes, and the single-resource TLV payload;
the observation stores the new value, the sent message id, and the
incremented (uint32) counter, and the CoAP `NextMessageID` advances
modulo 2^16.  `none` models the nil dereference on a missing resource
definition. -/
def NotifyResource (fc : ForeignCodecs) (h : Lwm2mHandler) (nextMessageID : Nat)
    (observe : Lwm2mObservedResource) :
    Option (Lwm2mObservedResource × Nat × List CoapMessage) :=
  match observe.resource.Definition with
  | none => none
  | some definition =>
    if ¬ definition.Readable then some (observe, nextMessageID, [])
    else
      let (value, code) := h.ReadResource observe.resource
      if code ≠ CoapCodeContent then some (observe, nextMessageID, [])
      else if value = observe.lastValue then some (observe, nextMessageID, [])
      else
        let resourceTLVValue := convertStringToTLVValue fc value definition.Typ
        let tlv : Lwm2mTLV :=
          .mk lwm2mTLVTypeResouce observe.resource.ID resourceTLVValue.length resourceTLVValue []
        let contentFormat := [coapContentFormatLwm2mTLV / 256 % 256, coapContentFormatLwm2mTLV % 256]
        let options : List CoapOption :=
          [⟨coapOptionNoContentFormat, contentFormat⟩,
           ⟨coapOptionNoObserve, observeCountBuf observe.observeCount⟩]
        let message : CoapMessage :=
          ⟨1, CoapTypeNonConfirmable, observe.token.length, CoapCodeContent,
            nextMessageID, observe.token, options, tlv.Marshal⟩
        some ({ observe with
                  lastValue := value
                  observeCount := (observe.observeCount + 1) % 4294967296
                  messageID := nextMessageID },
          (nextMessageID + 1) % 65536, [message])

/-- The per-resource loop of `NotifyInstance`: updated entries plus the
TLV payload of the changed readable resources. -/
def notifyInstanceLoop (fc : ForeignCodecs) (h : Lwm2mHandler) :
    List Lwm2mObservedResource → Option (List Lwm2mObservedResource × List Nat)
  | [] => some ([], [])
  | r :: rest =>
    match r.resource.Definition with
    | none => none
    | some definition =>
      if ¬ definition.Readable then
        (notifyInstanceLoop fc h rest).map (fun p => (r :: p.1, p.2))
      else
        let (value, code) := h.ReadResource r.resource
        if code ≠ CoapCodeContent then
          (notifyInstanceLoop fc h rest).map (fun p => (r :: p.1, p.2))
        else if value = r.lastValue then
          (notifyInstanceLoop fc h rest).map (fun p => (r :: p.1, p.2))
        else
          let resourceTLVValue := convertStringToTLVValue fc value definition.Typ
          let tlv : Lwm2mTLV :=
            .mk lwm2mTLVTypeResouce r.resource.ID resourceTLVValue.length resourceTLVValue []
          (notifyInstanceLoop fc h rest).map
            (fun p => ({ r with lastValue := value } :: p.1, tlv.Marshal ++ p.2))

/-- `Lwm2m.NotifyInstance`: nothing is sent when no observed resource of
the instance changed; otherwise one NON with the concatenated TLVs, the
instance observation's token and counter. -/
def NotifyInstance (fc : ForeignCodecs) (h : Lwm2mHandler) (nextMessageID : Nat)
    (observe : Lwm2mObservedInstance) :
    Option (Lwm2mObservedInstance × Nat × List CoapMessage) :=
  match notifyInstanceLoop fc h observe.resources with
  | none => none
  | some (resources2, payload) =>
    if payload.length = 0 then
      some ({ observe with resources := resources2 }, nextMessageID, [])
    else
      let contentFormat := [coapContentFormatLwm2mTLV / 256 % 256, coapContentFormatLwm2mTLV % 256]
      let options : List CoapOption :=
        [⟨coapOptionNoContentFormat, contentFormat⟩,
         ⟨coapOptionNoObserve, observeCountBuf observe.observeCount⟩]
      let message : CoapMessage :=
        ⟨1, CoapTypeNonConfirmable, observe.token.length, CoapCodeContent,
          nextMessageID, observe.token, options, payload⟩
      some ({ observe with
                resources := resources2
                observeCount := (observe.observeCount + 1) % 4294967296
                messageID := nextMessageID },
        (nextMessageID + 1) % 65536, [message])

/-- The observed-instance walk of `Lwm2m.Observe`. -/
def observeInstancesLoop (fc : ForeignCodecs) (h : Lwm2mHandler) :
    List Lwm2mObservedInstance → Nat →
    Option (List Lwm2mObservedInstance × Nat × List CoapMessage)
  | [], next => some ([], next, [])
  | o :: rest, next =>
    match NotifyInstance fc h next o with
    | none => none
    | some (o2, next2, msgs) =>
      match observeInstancesLoop fc h rest next2 with
      | none => none
      | some (os, next3, msgs2) => some (o2 :: os, next3, msgs ++ msgs2)

/-- The observed-resource walk of `Lwm2m.Observe`. -/
def observeResourcesLoop (fc : ForeignCodecs) (h : Lwm2mHandler) :
    List Lwm2mObservedResource → Nat →
    Option (List Lwm2mObservedResource × Nat × List CoapMessage)
  | [], next => some ([], next, [])
  | o :: rest, next =>
    match NotifyResource fc h next o with
    | none => none
    | some (o2, next2, msgs) =>
      match observeResourcesLoop fc h rest next2 with
      | none => none
      | some (os, next3, msgs2) => some (o2 :: os, next3, msgs ++ msgs2)

/-- `Lwm2m.Observe`: nothing without a connection or before
registration; otherwise walk the observed instances, then the observed
resources, collecting every NON sent in order. -/
def Lwm2mObserve (fc : ForeignCodecs) (hasConnection registered : Bool)
    (s : Lwm2mState) (nextMessageID : Nat) :
    Option (Lwm2mState × Nat × List CoapMessage) :=
  if ¬ hasConnection ∨ ¬ registered then some (s, nextMessageID, [])
  else
    match observeInstancesLoop fc s.handler s.observedInstance nextMessageID with
    | none => none
    | some (insts2, next2, msgs1) =>
      match observeResourcesLoop fc s.handler s.observedResource next2 with
      | none => none
      | some (ress2, next3, msgs2) =>
        some ({ s with
                  observedInstance := insts2
                  observedResource := ress2 },
          next3, msgs1 ++ msgs2)


/-! ## Claim C6: observe /3/0/9 then one Observe tick -/

/-- Battery-level resource definition (/3/0/9, Integer, readable). -/
def resDef9 : Lwm2mResourceDefinition :=
  ⟨9, "Battery Level", false, true, true, false, false, lwm2mResourceTypeInteger⟩

/-- Device object definition (id 3). -/
def objDef3 : Lwm2mObjectDefinition := ⟨3, "Device", false, true, [resDef9]⟩

/-- Handler whose battery resource reads "45". -/
def handler45 : Lwm2mHandler :=
  ⟨([3], CoapCodeContent), fun _ => ([0], CoapCodeContent),
   fun _ => ([9], CoapCodeContent), fun _ => ("45", CoapCodeContent)⟩

/-- The same handler after the value changed to "43". -/
def handler43 : Lwm2mHandler :=
  ⟨([3], CoapCodeContent), fun _ => ([0], CoapCodeContent),
   fun _ => ([9], CoapCodeContent), fun _ => ("43", CoapCodeContent)⟩

/-- The observe subscriber's token. -/
def regToken : List Nat := [170, 187, 204, 221, 238, 255, 0, 17]

/-- The observe-register GET on /3/0/9. -/
def regMessage : CoapMessage :=
  ⟨1, CoapTypeConfirmable, 8, CoapCodeGet, 0x1234, regToken,
    [⟨coapOptionNoObserve, [0]⟩], []⟩

/-- Agent state before the observe-register. -/
def c6State0 : Lwm2mState := ⟨[objDef3], handler45, [], []⟩

/-- The battery resource descriptor as resolved by `findResource`. -/
def c6Resource : Lwm2mResource := ⟨9, 3, 0, some resDef9⟩

/-- The observation created by the register. -/
def c6Observation : Lwm2mObservedResource := ⟨regToken, 0, 0, c6Resource, "45"⟩

/-- Agent state after the register, with the handler now reading "43". -/
def c6State1 : Lwm2mState := ⟨[objDef3], handler43, [], [c6Observation]⟩

/-- The NON notification the Observe tick emits. -/
def c6Notify : CoapMessage :=
  ⟨1, CoapTypeNonConfirmable, 8, CoapCodeContent, 100, regToken,
    [⟨coapOptionNoContentFormat, [45, 22]⟩, ⟨coapOptionNoObserve, [0]⟩],
    [0xC1, 0x09, 0x2B]⟩

example : (processReadResource dummyCodecs c6State0 3 0 9 regMessage).map
      (fun p => (p.1, p.2.observedInstance, p.2.observedResource)) =
    some (SendResponse regMessage CoapCodeContent
      [⟨coapOptionNoContentFormat, [45, 22]⟩, ⟨coapOptionNoObserve, [0]⟩]
      [0xC1, 0x09, 0x2D], [], [c6Observation]) := by decide

example : (Lwm2mObserve dummyCodecs true true c6State1 100).map
      (fun t => (t.1.observedInstance, t.1.observedResource, t.2.1, t.2.2)) =
    some ([], [⟨regToken, 100, 1, c6Resource, "43"⟩], 101, [c6Notify]) := by decide
/-- C6 counterexample: in the claimed scenario — observe-register on
/3/0/9 at value "45", value changed to "43", one Observe tick — the
single NON notification carries Observe option value bytes `[0x00]`,
not `[0x01]`: the source slices the counter buffer before incrementing
the counter, and a fresh observation starts at 0. -/
theorem observe_notify_count_not_one :
    (processReadResource dummyCodecs c6State0 3 0 9 regMessage).map
        (fun p => p.2.observedResource) = some [c6Observation] ∧
    (Lwm2mObserve dummyCodecs true true c6State1 100).map
        (fun t => t.2.2.map (fun m => m.Options)) =
      some [[⟨coapOptionNoContentFormat, [45, 22]⟩, ⟨coapOptionNoObserve, [0x00]⟩]] ∧
    ([0x00] : List Nat) ≠ [0x01] :=
  ⟨by decide, by decide, by decide⟩

/-- C6 (amended): after a successful observe-register on /3/0/9 (value
"45"), changing the handler value to "43" and running one Observe tick
produces exactly one NON message with the subscriber's token, an
Observe option whose value bytes are `[0x00]` (the counter before its
post-send increment), content-format 11542, and a TLV payload encoding
resource id 9 with value byte 0x2B; the stored observation advances to
counter 1 and records the sent message id and the new value. -/
theorem observe_notify_scenario :
    (processReadResource dummyCodecs c6State0 3 0 9 regMessage).map
        (fun p => (p.1.Code, p.2.observedInstance, p.2.observedResource)) =
      some (CoapCodeContent, [], [c6Observation]) ∧
    (Lwm2mObserve dummyCodecs true true c6State1 100).map
        (fun t => (t.1.observedInstance, t.1.observedResource, t.2.1, t.2.2)) =
      some ([], [⟨regToken, 100, 1, c6Resource, "43"⟩], 101, [c6Notify]) ∧
    c6Notify.Typ = CoapTypeNonConfirmable ∧
    c6Notify.Token = regMessage.Token ∧
    c6Notify.Options = [⟨coapOptionNoContentFormat,
        [coapContentFormatLwm2mTLV / 256 % 256, coapContentFormatLwm2mTLV % 256]⟩,
      ⟨coapOptionNoObserve, [0x00]⟩] ∧
    c6Notify.Payload = (Lwm2mTLV.mk lwm2mTLVTypeResouce 9 1 [0x2B] []).Marshal :=
  ⟨by decide, by decide, rfl, rfl, by decide, rfl⟩

/-! ## Claim C7: GET dispatch reply codes -/

/-- C7: for a GET dispatched to a resource (depth 3) or instance
(depth 2): a missing node replies 4.04 Not Found; a resolved but
non-readable resource (or a failing read) replies 4.05 Method Not
Allowed; a successful read replies 2.05 Content with content-format
11542, and an Observe request additionally gets an Observe option with
value 0. -/
theorem read_dispatch_codes (fc : ForeignCodecs) (s : Lwm2mState)
    (objectID instanceID resourceID : Nat) (message : CoapMessage) :
    (findResource s.definitions s.handler objectID instanceID resourceID = none →
      (processReadResource fc s objectID instanceID resourceID message).map (fun p => p.1.Code)
        = some CoapCodeNotFound) ∧
    (∀ r d, findResource s.definitions s.handler objectID instanceID resourceID = some r →
      r.Definition = some d → d.Readable = false →
      (processReadResource fc s objectID instanceID resourceID message).map (fun p => p.1.Code)
        = some CoapCodeNotAllowed) ∧
    (∀ r d, findResource s.definitions s.handler objectID instanceID resourceID = some r →
      r.Definition = some d → d.Readable = true →
      (s.handler.ReadResource r).2 = CoapCodeContent →
      ∃ payload s2, processReadResource fc s objectID instanceID resourceID message =
        some (SendResponse message CoapCodeContent
          (if message.IsObserve then
            [⟨coapOptionNoContentFormat,
               [coapContentFormatLwm2mTLV / 256 % 256, coapContentFormatLwm2mTLV % 256]⟩,
             ⟨coapOptionNoObserve, [coapObserveRegister]⟩]
           else
            [⟨coapOptionNoContentFormat,
               [coapContentFormatLwm2mTLV / 256 % 256, coapContentFormatLwm2mTLV % 256]⟩])
          payload, s2)) ∧
    (findInstance s.definitions s.handler objectID instanceID = none →
      (processReadInstance fc s objectID instanceID message).map (fun p => p.1.Code)
        = some CoapCodeNotFound) ∧
    (∀ inst, findInstance s.definitions s.handler objectID instanceID = some inst →
      (s.handler.ListResourceIDs inst).2 = CoapCodeContent →
      ∀ payload obs, readInstanceLoop fc s.definitions s.handler objectID instanceID
          message.IsObserve (s.handler.ListResourceIDs inst).1 = some (payload, obs) →
      ∃ s2, processReadInstance fc s objectID instanceID message =
        some (SendResponse message CoapCodeContent
          (if message.IsObserve then
            [⟨coapOptionNoContentFormat,
               [coapContentFormatLwm2mTLV / 256 % 256, coapContentFormatLwm2mTLV % 256]⟩,
             ⟨coapOptionNoObserve, [coapObserveRegister]⟩]
           else
            [⟨coapOptionNoContentFormat,
               [coapContentFormatLwm2mTLV / 256 % 256, coapContentFormatLwm2mTLV % 256]⟩])
          payload, s2)) := by
  refine ⟨?_, ?_, ?_, ?_, ?_⟩
  · intro h
    simp [processReadResource, h, SendResponse]
  · intro r d hr hd hread
    simp [processReadResource, hr, hd, hread, SendResponse]
  · intro r d hr hd hread hcode
    rcases hp : s.handler.ReadResource r with ⟨v, c⟩
    rw [hp] at hcode
    simp only at hcode
    subst hcode
    by_cases ho : message.IsObserve
    · exact ⟨(Lwm2mTLV.mk lwm2mTLVTypeResouce resourceID
          (convertStringToTLVValue fc v d.Typ).length (convertStringToTLVValue fc v d.Typ) []).Marshal,
        { s with observedResource := s.observedResource ++ [⟨message.Token, 0, 0, r, v⟩] },
        by simp [processReadResource, hr, hd, hread, hp, ho]⟩
    · exact ⟨(Lwm2mTLV.mk lwm2mTLVTypeResouce resourceID
          (convertStringToTLVValue fc v d.Typ).length (convertStringToTLVValue fc v d.Typ) []).Marshal,
        s, by simp [processReadResource, hr, hd, hread, hp, ho]⟩
  · intro h
    simp [processReadInstance, h, SendResponse]
  · intro inst hinst hcode payload obs hloop
    rcases hl : s.handler.ListResourceIDs inst with ⟨rids, c⟩
    rw [hl] at hcode hloop
    simp only at hcode hloop
    subst hcode
    cases ho : message.IsObserve with
    | true =>
      rw [ho] at hloop
      exact ⟨{ s with observedInstance := s.observedInstance ++ [⟨message.Token, 0, 0, inst, obs⟩] },
        by simp [processReadInstance, hinst, hl, hloop, ho]⟩
    | false =>
      rw [ho] at hloop
      exact ⟨s, by simp [processReadInstance, hinst, hl, hloop, ho]⟩

/-- C7 witness: the success branch at the concrete /3/0/9 observe GET of
the C6 scenario. -/
theorem read_dispatch_codes_witness :
    ∃ payload s2, processReadResource dummyCodecs c6State0 3 0 9 regMessage =
      some (SendResponse regMessage CoapCodeContent
        (if regMessage.IsObserve then
          [⟨coapOptionNoContentFormat,
             [coapContentFormatLwm2mTLV / 256 % 256, coapContentFormatLwm2mTLV % 256]⟩,
           ⟨coapOptionNoObserve, [coapObserveRegister]⟩]
         else
          [⟨coapOptionNoContentFormat,
             [coapContentFormatLwm2mTLV / 256 % 256, coapContentFormatLwm2mTLV % 256]⟩])
        payload, s2) :=
  (read_dispatch_codes dummyCodecs c6State0 3 0 9 regMessage).2.2.1 c6Resource resDef9
    (by decide) rfl rfl (by decide)

/-! ## DTLS record layer and handshake -/

/-- DTLS content type ChangeCipherSpec. -/
def dtlsContentTypeChangeCipherSpec : Nat := 20

/-- DTLS content type Handshake. -/
def dtlsContentTypeHandshake : Nat := 22

/-- DTLS content type ApplicationData. -/
def dtlsContentTypeApplicationData : Nat := 23

/-- Handshake type ClientHello. -/
def dtlsHandshakeTypeClientHello : Nat := 1

/-- Handshake type ServerHello. -/
def dtlsHandshakeTypeServerHello : Nat := 2

/-- Handshake type HelloVerifyRequest. -/
def dtlsHandshakeTypeHelloVerifyRequest : Nat := 3

/-- Handshake type ServerHelloDone. -/
def dtlsHandshakeTypeServerHelloDone : Nat := 14

/-- Handshake type ClientKeyExchange. -/
def dtlsHandshakeTypeClientKeyExchange : Nat := 16

/-- Handshake type Finished. -/
def dtlsHandshakeTypeFinished : Nat := 20

/-- The one-byte ChangeCipherSpec message. -/
def dtlsChangeCipherSpecMessage : Nat := 1

/-- `DtlsHandshakeParams`. -/
structure DtlsHandshakeParams where
  ServerSequence : Nat
  ClientSequence : Nat
  Identity : List Nat
  Cookie : List Nat
  Session : List Nat
  ClientRandom : List Nat
  ServerRandom : List Nat
  PreMasterSecret : List Nat
  MasterSecret : List Nat
  Messages : List Nat
  Verified : Bool
  deriving DecidableEq

/-- The two hash primitives of the handshake (Go `crypto/hmac` with
`crypto/sha256`); real HMAC-SHA256 returns 32 bytes for every input,
which theorems assume explicitly where needed. -/
structure HashPrims where
  hmacSha256 : List Nat → List Nat → List Nat
  sha256 : List Nat → List Nat

/-- A trivial instantiation of the hash primitives (32-byte outputs)
used to run the embedded handshake on concrete inputs. -/
def dummyHash : HashPrims where
  hmacSha256 _ _ := List.replicate 32 0
  sha256 _ := List.replicate 32 0

/-- The `for` loop of `dtlsPrf`: keep appending output blocks
`HMAC(secret, A(i+1) || A(0))` while the output is shorter than
`length`.  The fuel equals `length`; each round appends at least one
byte whenever the HMAC output is nonempty, so the fuel never runs
out for HMAC-SHA256. -/
def dtlsPrfLoop (hp : HashPrims) (secret a0 : List Nat) (length : Nat) :
    Nat → List Nat → List Nat → List Nat
  | 0, _, ret => ret
  | fuel + 1, aPrev, ret =>
    if ret.length < length then
      let aNext := hp.hmacSha256 secret aPrev
      dtlsPrfLoop hp secret a0 length fuel aNext (ret ++ hp.hmacSha256 secret (aNext ++ a0))
    else ret

/-- `dtlsPrf`: the TLS 1.2 PRF (P_SHA256), truncated to `length`. -/
def dtlsPrf (hp : HashPrims) (secret label seed : List Nat) (length : Nat) : List Nat :=
  (dtlsPrfLoop hp secret (label ++ seed) length length (label ++ seed) []).take length

/-- Label bytes of "master secret". -/
def masterSecretLabel : List Nat := utf8Enc "master secret"

/-- Label bytes of "key expansion". -/
def keyExpansionLabel : List Nat := utf8Enc "key expansion"

/-- Label bytes of "client finished". -/
def clientFinishedLabel : List Nat := utf8Enc "client finished"

/-- Label bytes of "server finished". -/
def serverFinishedLabel : List Nat := utf8Enc "server finished"

/-- `GenerateClientVerifyData`:
`PRF(master, "client finished", SHA256(Messages), 12)`. -/
def GenerateClientVerifyData (hp : HashPrims) (p : DtlsHandshakeParams) : List Nat :=
  dtlsPrf hp p.MasterSecret clientFinishedLabel (hp.sha256 p.Messages) 12

/-- `GenerateServerVerifyData`:
`PRF(master, "server finished", SHA256(Messages), 12)`. -/
def GenerateServerVerifyData (hp : HashPrims) (p : DtlsHandshakeParams) : List Nat :=
  dtlsPrf hp p.MasterSecret serverFinishedLabel (hp.sha256 p.Messages) 12

/-- `DtlsPreMasterSecretFromPSK`:
`uint16(N) || N zero bytes || uint16(N) || PSK`. -/
def DtlsPreMasterSecretFromPSK (psk : List Nat) : List Nat :=
  let lenBytes := [psk.length / 256 % 256, psk.length % 256]
  lenBytes ++ List.replicate psk.length 0 ++ lenBytes ++ psk

/-- `DtlsHandshake.ToBytes`: 12-byte header (type, 24-bit length, 16-bit
message sequence, 24-bit fragment offset 0, 24-bit fragment length),
then the body for ClientHello / ClientKeyExchange / Finished; finally
the computed fragment length is copied into bytes 1-3 and 9-11. -/
def dtlsHandshakeToBytes (hp : HashPrims) (htype : Nat) (seq : Nat)
    (params : DtlsHandshakeParams) : List Nat :=
  let ret0 : List Nat := [htype, 0, 0, 0, seq / 256 % 256, seq % 256, 0, 0, 0, 0, 0, 0]
  let ret :=
    if htype = dtlsHandshakeTypeClientHello then
      ret0 ++ ([254, 253] ++ params.ClientRandom
        ++ [params.Session.length % 256] ++ params.Session
        ++ [params.Cookie.length % 256] ++ params.Cookie
        ++ [0, 2] ++ [192, 168] ++ [1, 0])
    else if htype = dtlsHandshakeTypeClientKeyExchange then
      ret0 ++ ([params.Identity.length / 256 % 256, params.Identity.length % 256]
        ++ params.Identity)
    else if htype = dtlsHandshakeTypeFinished then
      ret0 ++ GenerateClientVerifyData hp params
    else ret0
  let fragmentLength := ret.length - 12
  let f1 := fragmentLength / 65536 % 256
  let f2 := fragmentLength / 256 % 256
  let f3 := fragmentLength % 256
  (((((ret.set 1 f1).set 2 f2).set 3 f3).set 9 f1).set 10 f2).set 11 f3

/-- `DtlsHandshake.Parse`: updates the handshake parameters from one
received handshake message.  ServerHello/ServerHelloDone append their
own bytes (header plus declared fragment length) to `Messages`; the
HelloVerifyRequest only stores the cookie; Finished compares the
received verify data (the 12 bytes after the header) against
`GenerateServerVerifyData` byte for byte. -/
def dtlsHandshakeParse (hp : HashPrims) (p : DtlsHandshakeParams) (raw : List Nat) :
    DtlsHandshakeParams :=
  let htype := raw.getD 0 0
  let length := (raw.getD 1 0) * 65536 + (raw.getD 2 0) * 256 + raw.getD 3 0
  let seq := (raw.getD 4 0) * 256 + raw.getD 5 0
  let p := { p with ServerSequence := seq }
  if htype = dtlsHandshakeTypeHelloVerifyRequest then
    { p with Cookie := (raw.drop 15).take 32 }
  else if htype = dtlsHandshakeTypeServerHello then
    { p with
        ServerRandom := (raw.drop 14).take 32
        Session := (raw.drop 47).take 32
        Messages := p.Messages ++ raw.take (12 + length) }
  else if htype = dtlsHandshakeTypeServerHelloDone then
    { p with Messages := p.Messages ++ raw.take (12 + length) }
  else if htype = dtlsHandshakeTypeFinished then
    { p with Verified := GenerateServerVerifyData hp p == (raw.drop 12).take 12 }
  else p

/-- The `Dtls` connection state (the socket itself is outside the
embedding; keys and IVs are the `GenerateSecurityParams` slices). -/
structure Dtls where
  ServerEpoch : Nat
  ClientEpoch : Nat
  ServerSequence : Nat
  ClientSequence : Nat
  ServerWriteKey : List Nat
  ClientWriteKey : List Nat
  ServerIV : List Nat
  ClientIV : List Nat
  ClientEncrypt : Bool
  ServerEncrypt : Bool
  Handshake : DtlsHandshakeParams
  deriving DecidableEq

/-- `DtlsPacket`. -/
structure DtlsPacket where
  Typ : Nat
  Epoch : Nat
  Sequence : Nat
  ContentLength : Nat
  Content : List Nat
  deriving DecidableEq

/-- `Dtls.ParsePacket`: reject short records; read epoch, 48-bit
sequence and content length; decrypt (a foreign AES-CCM primitive,
`none` on MAC mismatch) when server encryption is on; then dispatch on
the content type — a handshake record updates the handshake parameters,
a ChangeCipherSpec record turns server encryption on (and touches
nothing else). -/
def Dtls.ParsePacket (hp : HashPrims) (decrypt : List Nat → Nat → Option (List Nat))
    (dtls : Dtls) (raw : List Nat) : Dtls × Option DtlsPacket :=
  if raw.length < 13 then (dtls, none)
  else
    let ptype := raw.getD 0 0
    let epoch := (raw.getD 3 0) * 256 + raw.getD 4 0
    let sequence := (raw.getD 5 0) * 1099511627776 + (raw.getD 6 0) * 4294967296
      + (raw.getD 7 0) * 16777216 + (raw.getD 8 0) * 65536
      + (raw.getD 9 0) * 256 + raw.getD 10 0
    let contentLength := (raw.getD 11 0) * 256 + raw.getD 12 0
    if raw.length < 13 + contentLength then (dtls, none)
    else
      let contentResult : Option (List Nat) :=
        if dtls.ServerEncrypt then decrypt ((raw.drop 13).take contentLength) ptype
        else some ((raw.drop 13).take contentLength)
      match contentResult with
      | none => (dtls, none)
      | some content =>
        let dtls2 :=
          if ptype = dtlsContentTypeHandshake then
            { dtls with Handshake := dtlsHandshakeParse hp dtls.Handshake content }
          else if ptype = dtlsContentTypeChangeCipherSpec then
            { dtls with ServerEncrypt := true }
          else dtls
        (dtls2, some ⟨ptype, epoch, sequence, contentLength, content⟩)

/-- `Dtls.SendChangeCipherSpec`: emit the one-byte CCS record at the
current client epoch/sequence, then increment the client epoch (uint16),
reset the client sequence to 0 and enable client encryption. -/
def Dtls.SendChangeCipherSpec (dtls : Dtls) : Dtls × DtlsPacket :=
  ({ dtls with
      ClientEpoch := (dtls.ClientEpoch + 1) % 65536
      ClientSequence := 0
      ClientEncrypt := true },
   ⟨dtlsContentTypeChangeCipherSpec, dtls.ClientEpoch, dtls.ClientSequence, 1,
    [dtlsChangeCipherSpecMessage]⟩)

/-- `Dtls.GenerateSecurityParams`: master secret and key block by the
TLS 1.2 PRF, sliced into client/server write keys and IVs. -/
def Dtls.GenerateSecurityParams (hp : HashPrims) (dtls : Dtls) : Dtls :=
  let masterSecret := dtlsPrf hp dtls.Handshake.PreMasterSecret masterSecretLabel
    (dtls.Handshake.ClientRandom ++ dtls.Handshake.ServerRandom) 48
  let keyBlock := dtlsPrf hp masterSecret keyExpansionLabel
    (dtls.Handshake.ServerRandom ++ dtls.Handshake.ClientRandom) 40
  { dtls with
      Handshake := { dtls.Handshake with MasterSecret := masterSecret }
      ClientWriteKey := keyBlock.take 16
      ServerWriteKey := (keyBlock.drop 16).take 16
      ClientIV := (keyBlock.drop 32).take 4
      ServerIV := (keyBlock.drop 36).take 4 }

/-- `Dtls.GetCookie`: send the first ClientHello — which is NOT added to
the hashed `Messages` — and parse the HelloVerifyRequest reply
(`response` is the received record).  Returns the new state and the
ClientHello bytes that were sent. -/
def Dtls.GetCookie (hp : HashPrims) (decrypt : List Nat → Nat → Option (List Nat))
    (dtls : Dtls) (response : List Nat) : Dtls × List Nat :=
  let ch1 := dtlsHandshakeToBytes hp dtlsHandshakeTypeClientHello
    dtls.Handshake.ClientSequence dtls.Handshake
  let dtls := { dtls with
    ClientSequence := dtls.ClientSequence + 1
    Handshake := { dtls.Handshake with
      ClientSequence := (dtls.Handshake.ClientSequence + 1) % 65536 } }
  ((Dtls.ParsePacket hp decrypt dtls response).1, ch1)

/-- `Dtls.GetSession`: send the second ClientHello (now carrying the
cookie), append it to `Messages`, then parse the ServerHello record and,
after it, the ServerHelloDone record from the same datagram. -/
def Dtls.GetSession (hp : HashPrims) (decrypt : List Nat → Nat → Option (List Nat))
    (dtls : Dtls) (response : List Nat) : Dtls × List Nat :=
  let ch2 := dtlsHandshakeToBytes hp dtlsHandshakeTypeClientHello
    dtls.Handshake.ClientSequence dtls.Handshake
  let dtls := { dtls with
    Handshake := { dtls.Handshake with Messages := dtls.Handshake.Messages ++ ch2 } }
  let dtls := { dtls with
    ClientSequence := dtls.ClientSequence + 1
    Handshake := { dtls.Handshake with
      ClientSequence := (dtls.Handshake.ClientSequence + 1) % 65536 } }
  match Dtls.ParsePacket hp decrypt dtls response with
  | (dtls, none) => (dtls, ch2)
  | (dtls, some serverHello) =>
    ((Dtls.ParsePacket hp decrypt dtls
        (response.drop (serverHello.ContentLength + 13))).1, ch2)

/-- `Dtls.SendClientKeyExchange`: send the ClientKeyExchange and append
it to `Messages`. -/
def Dtls.SendClientKeyExchange (hp : HashPrims) (dtls : Dtls) : Dtls × List Nat :=
  let cke := dtlsHandshakeToBytes hp dtlsHandshakeTypeClientKeyExchange
    dtls.Handshake.ClientSequence dtls.Handshake
  ({ dtls with
      ClientSequence := dtls.ClientSequence + 1
      Handshake := { dtls.Handshake with
        Messages := dtls.Handshake.Messages ++ cke
        ClientSequence := (dtls.Handshake.ClientSequence + 1) % 65536 } }, cke)

/-- `Dtls.SendFinished`: build the plaintext Finished (its verify data
hashes the `Messages` gathered so far), append it to `Messages`, send it
encrypted (the AES-CCM encryption itself is outside the embedding),
then parse the server's ChangeCipherSpec record and, after it, the
server's encrypted Finished record from the same datagram. -/
def Dtls.SendFinished (hp : HashPrims) (decrypt : List Nat → Nat → Option (List Nat))
    (dtls : Dtls) (response : List Nat) : Dtls × List Nat :=
  let fin := dtlsHandshakeToBytes hp dtlsHandshakeTypeFinished
    dtls.Handshake.ClientSequence dtls.Handshake
  let dtls := { dtls with
    Handshake := { dtls.Handshake with Messages := dtls.Handshake.Messages ++ fin } }
  let dtls := { dtls with
    ClientSequence := dtls.ClientSequence + 1
    Handshake := { dtls.Handshake with
      ClientSequence := (dtls.Handshake.ClientSequence + 1) % 65536 } }
  match Dtls.ParsePacket hp decrypt dtls response with
  | (dtls, none) => (dtls, fin)
  | (dtls, some changeCipherSpec) =>
    ((Dtls.ParsePacket hp decrypt dtls
        (response.drop (changeCipherSpec.ContentLength + 13))).1, fin)

/-- Declared content length of a DTLS record (bytes 11-12). -/
def contentLen (raw : List Nat) : Nat := (raw.getD 11 0) * 256 + raw.getD 12 0

/-- Content bytes of a DTLS record (after the 13-byte header). -/
def recordContent (raw : List Nat) : List Nat := (raw.drop 13).take (contentLen raw)

/-- Declared fragment length of a handshake message (bytes 1-3). -/
def fragLen (msg : List Nat) : Nat :=
  (msg.getD 1 0) * 65536 + (msg.getD 2 0) * 256 + msg.getD 3 0

/-- The handshake message a record carries: header plus declared
fragment, as `DtlsHandshake.Parse` slices it into `Messages`. -/
def handshakeMsg (raw : List Nat) : List Nat :=
  (recordContent raw).take (12 + fragLen (recordContent raw))

/-- Evaluation of `Dtls.ParsePacket` on a complete plaintext record. -/
theorem parsePacket_plain (hp : HashPrims) (decrypt : List Nat → Nat → Option (List Nat))
    (dtls : Dtls) (raw : List Nat) (henc : dtls.ServerEncrypt = false)
    (hl : 13 + contentLen raw ≤ raw.length) :
    Dtls.ParsePacket hp decrypt dtls raw =
      (if raw.getD 0 0 = dtlsContentTypeHandshake then
        { dtls with Handshake := dtlsHandshakeParse hp dtls.Handshake (recordContent raw) }
       else if raw.getD 0 0 = dtlsContentTypeChangeCipherSpec then
        { dtls with ServerEncrypt := true }
       else dtls,
       some ⟨raw.getD 0 0, (raw.getD 3 0) * 256 + raw.getD 4 0,
        (raw.getD 5 0) * 1099511627776 + (raw.getD 6 0) * 4294967296
          + (raw.getD 7 0) * 16777216 + (raw.getD 8 0) * 65536
          + (raw.getD 9 0) * 256 + raw.getD 10 0,
        contentLen raw, recordContent raw⟩) := by
  have h13 : ¬ raw.length < 13 := by
    simp only [contentLen] at hl
    omega
  have hfull : ¬ raw.length < 13 + ((raw.getD 11 0) * 256 + raw.getD 12 0) := by
    simp only [contentLen] at hl
    omega
  have hl2 : 13 + ((raw[11]?).getD 0 * 256 + (raw[12]?).getD 0) ≤ raw.length := by
    simpa [contentLen, List.getD] using hl
  simp [Dtls.ParsePacket, henc, h13, hfull, contentLen, recordContent, hl2]

/-! ## Claim C5: ChangeCipherSpec epoch/sequence effects -/

/-- Zero-valued handshake parameters for concrete states. -/
def emptyHandshakeParams : DtlsHandshakeParams :=
  ⟨0, 0, [], [], [], [], [], [], [], [], false⟩

/-- A concrete mid-handshake DTLS state: server epoch 0, server
sequence 5, encryption off in both directions. -/
def c5State : Dtls := ⟨0, 0, 5, 7, [], [], [], [], false, false, emptyHandshakeParams⟩

/-- A complete ChangeCipherSpec record (13-byte header, one content
byte). -/
def ccsRecord : List Nat := [20, 254, 253, 0, 0, 0, 0, 0, 0, 0, 0, 0, 1, 1]

/-- A decrypt primitive that is never consulted in these claims. -/
def noDecrypt : List Nat → Nat → Option (List Nat) := fun _ _ => none

/-- C5 counterexample: receiving a ChangeCipherSpec record leaves the
server epoch and server sequence exactly as they were (0 and 5 here)
and only turns server encryption on — the claimed increment-and-reset
does not happen on the receive side. -/
theorem ccs_receive_no_epoch_change :
    (Dtls.ParsePacket dummyHash noDecrypt c5State ccsRecord).1.ServerEpoch = 0 ∧
    (Dtls.ParsePacket dummyHash noDecrypt c5State ccsRecord).1.ServerSequence = 5 ∧
    (Dtls.ParsePacket dummyHash noDecrypt c5State ccsRecord).1.ServerEncrypt = true ∧
    ((0 : Nat) ≠ 0 + 1 ∧ (5 : Nat) ≠ 0) :=
  ⟨by decide, by decide, by decide, by decide⟩

/-- C5 (amended): sending ChangeCipherSpec increments the client epoch
(uint16) and resets the client sequence to 0, turning client encryption
on; receiving a complete ChangeCipherSpec record during the handshake
(server encryption still off) only turns server encryption on and
leaves every other field — in particular server epoch and server
sequence — unchanged. -/
theorem changeCipherSpec_effect (hp : HashPrims)
    (decrypt : List Nat → Nat → Option (List Nat)) (dtls : Dtls) (raw : List Nat)
    (henc : dtls.ServerEncrypt = false)
    (htype : raw.getD 0 0 = dtlsContentTypeChangeCipherSpec)
    (hlen : 13 + contentLen raw ≤ raw.length) :
    ((Dtls.SendChangeCipherSpec dtls).1.ClientEpoch = (dtls.ClientEpoch + 1) % 65536 ∧
     (Dtls.SendChangeCipherSpec dtls).1.ClientSequence = 0 ∧
     (Dtls.SendChangeCipherSpec dtls).1.ClientEncrypt = true ∧
     (Dtls.SendChangeCipherSpec dtls).1.ServerEpoch = dtls.ServerEpoch ∧
     (Dtls.SendChangeCipherSpec dtls).1.ServerSequence = dtls.ServerSequence) ∧
    (Dtls.ParsePacket hp decrypt dtls raw).1 = { dtls with ServerEncrypt := true } := by
  refine ⟨⟨rfl, rfl, rfl, rfl, rfl⟩, ?_⟩
  rw [parsePacket_plain hp decrypt dtls raw henc hlen]
  have ht2 : (raw[0]?).getD 0 = 20 := by
    simpa [List.getD, dtlsContentTypeChangeCipherSpec] using htype
  simp [ht2, dtlsContentTypeHandshake, dtlsContentTypeChangeCipherSpec]

/-- C5 witness: the amended effects at the concrete state and record. -/
theorem changeCipherSpec_effect_witness :
    ((Dtls.SendChangeCipherSpec c5State).1.ClientEpoch = (c5State.ClientEpoch + 1) % 65536 ∧
     (Dtls.SendChangeCipherSpec c5State).1.ClientSequence = 0 ∧
     (Dtls.SendChangeCipherSpec c5State).1.ClientEncrypt = true ∧
     (Dtls.SendChangeCipherSpec c5State).1.ServerEpoch = c5State.ServerEpoch ∧
     (Dtls.SendChangeCipherSpec c5State).1.ServerSequence = c5State.ServerSequence) ∧
    (Dtls.ParsePacket dummyHash noDecrypt c5State ccsRecord).1 =
      { c5State with ServerEncrypt := true } :=
  changeCipherSpec_effect dummyHash noDecrypt c5State ccsRecord rfl (by decide) (by decide)

/-- The record that follows the first one in a datagram (the source
continues parsing at `packet.Length() = ContentLength + 13`). -/
def nextRecord (raw : List Nat) : List Nat := raw.drop (contentLen raw + 13)

/-- Parsing an encrypted record whose successful decryption is a
Finished message never touches the hashed `Messages` or the master
secret. -/
theorem parsePacket_keeps_messages (hp : HashPrims)
    (decrypt : List Nat → Nat → Option (List Nat)) (d : Dtls) (raw : List Nat)
    (henc : d.ServerEncrypt = true)
    (hfin : ∀ c, decrypt (recordContent raw) (raw.getD 0 0) = some c →
      c.getD 0 0 = dtlsHandshakeTypeFinished) :
    (Dtls.ParsePacket hp decrypt d raw).1.Handshake.Messages = d.Handshake.Messages ∧
    (Dtls.ParsePacket hp decrypt d raw).1.Handshake.MasterSecret = d.Handshake.MasterSecret := by
  by_cases h13 : raw.length < 13
  · simp [Dtls.ParsePacket, h13]
  · by_cases hfull : raw.length < 13 + ((raw.getD 11 0) * 256 + raw.getD 12 0)
    · have hfull2 : raw.length < 13 + ((raw[11]?).getD 0 * 256 + (raw[12]?).getD 0) := by
        simpa [List.getD] using hfull
      simp [Dtls.ParsePacket, h13, hfull2]
    · have hfull2 : ¬ raw.length < 13 + ((raw[11]?).getD 0 * 256 + (raw[12]?).getD 0) := by
        simpa [List.getD] using hfull
      cases hd : decrypt ((raw.drop 13).take ((raw.getD 11 0) * 256 + raw.getD 12 0))
          (raw.getD 0 0) with
      | none =>
        have hd2 : decrypt ((raw.drop 13).take ((raw[11]?).getD 0 * 256 + (raw[12]?).getD 0))
            ((raw[0]?).getD 0) = none := by simpa [List.getD] using hd
        simp [Dtls.ParsePacket, h13, hfull2, henc, hd2]
      | some pt =>
        have hc : pt.getD 0 0 = dtlsHandshakeTypeFinished := by
          apply hfin
          simpa [recordContent, contentLen] using hd
        have hd2 : decrypt ((raw.drop 13).take ((raw[11]?).getD 0 * 256 + (raw[12]?).getD 0))
            ((raw[0]?).getD 0) = some pt := by simpa [List.getD] using hd
        by_cases ht : (raw.getD 0 0) = dtlsContentTypeHandshake
        · have ht2 : (raw[0]?).getD 0 = dtlsContentTypeHandshake := by
            simpa [List.getD] using ht
          have hc2 : (pt[0]?).getD 0 = 20 := by
            simpa [List.getD, dtlsHandshakeTypeFinished] using hc
          rw [ht2] at hd2
          simp only [dtlsContentTypeHandshake] at hd2
          simp [Dtls.ParsePacket, h13, hfull2, henc, hd2, ht2, dtlsHandshakeParse, hc2,
            dtlsHandshakeTypeHelloVerifyRequest, dtlsHandshakeTypeServerHello,
            dtlsHandshakeTypeServerHelloDone, dtlsHandshakeTypeFinished,
            dtlsContentTypeHandshake]
        · have ht2 : ¬ (raw[0]?).getD 0 = dtlsContentTypeHandshake := by
            simpa [List.getD] using ht
          by_cases hccs : (raw.getD 0 0) = dtlsContentTypeChangeCipherSpec
          · have hccs2 : (raw[0]?).getD 0 = dtlsContentTypeChangeCipherSpec := by
              simpa [List.getD] using hccs
            rw [hccs2] at hd2
            simp only [dtlsContentTypeChangeCipherSpec] at hd2
            simp [Dtls.ParsePacket, h13, hfull2, henc, hd2, ht2, hccs2,
              dtlsContentTypeHandshake, dtlsContentTypeChangeCipherSpec]
          · have hccs2 : ¬ (raw[0]?).getD 0 = dtlsContentTypeChangeCipherSpec := by
              simpa [List.getD] using hccs
            simp [Dtls.ParsePacket, h13, hfull2, henc, hd2, ht2, hccs2]

/-- `GetCookie` projections: the first ClientHello is not hashed and the
HelloVerifyRequest reply only stores the cookie, so `Messages`, the
secrets and the server-encrypt flag are untouched. -/
theorem getCookie_effect (hp : HashPrims) (decrypt : List Nat → Nat → Option (List Nat))
    (d : Dtls) (resp : List Nat) (henc : d.ServerEncrypt = false)
    (h1 : resp.getD 0 0 = dtlsContentTypeHandshake)
    (h2 : 13 + contentLen resp ≤ resp.length)
    (h3 : (recordContent resp).getD 0 0 = dtlsHandshakeTypeHelloVerifyRequest) :
    (Dtls.GetCookie hp decrypt d resp).1.Handshake.Messages = d.Handshake.Messages ∧
    (Dtls.GetCookie hp decrypt d resp).1.ServerEncrypt = false ∧
    (Dtls.GetCookie hp decrypt d resp).1.Handshake.MasterSecret = d.Handshake.MasterSecret ∧
    (Dtls.GetCookie hp decrypt d resp).1.Handshake.PreMasterSecret = d.Handshake.PreMasterSecret := by
  have h1b : (resp[0]?).getD 0 = 22 := by
    simpa [List.getD, dtlsContentTypeHandshake] using h1
  have h3b : ((recordContent resp)[0]?).getD 0 = dtlsHandshakeTypeHelloVerifyRequest := by
    simpa [List.getD] using h3
  simp [Dtls.GetCookie, parsePacket_plain, henc, h2, h1, h1b, dtlsContentTypeHandshake,
    dtlsHandshakeParse, h3b, dtlsHandshakeTypeHelloVerifyRequest]

/-- `GetSession` projections: the second ClientHello, the ServerHello
and the ServerHelloDone are appended to `Messages` in this order; the
secrets and the server-encrypt flag are untouched. -/
theorem getSession_effect (hp : HashPrims) (decrypt : List Nat → Nat → Option (List Nat))
    (d : Dtls) (resp : List Nat) (henc : d.ServerEncrypt = false)
    (h1 : resp.getD 0 0 = dtlsContentTypeHandshake)
    (h2 : 13 + contentLen resp ≤ resp.length)
    (h3 : (recordContent resp).getD 0 0 = dtlsHandshakeTypeServerHello)
    (h4 : (nextRecord resp).getD 0 0 = dtlsContentTypeHandshake)
    (h5 : 13 + contentLen (nextRecord resp) ≤ (nextRecord resp).length)
    (h6 : (recordContent (nextRecord resp)).getD 0 0 = dtlsHandshakeTypeServerHelloDone) :
    (Dtls.GetSession hp decrypt d resp).1.Handshake.Messages =
      d.Handshake.Messages ++ ((Dtls.GetSession hp decrypt d resp).2
        ++ (handshakeMsg resp ++ handshakeMsg (nextRecord resp))) ∧
    (Dtls.GetSession hp decrypt d resp).1.ServerEncrypt = false ∧
    (Dtls.GetSession hp decrypt d resp).1.Handshake.MasterSecret = d.Handshake.MasterSecret ∧
    (Dtls.GetSession hp decrypt d resp).1.Handshake.PreMasterSecret = d.Handshake.PreMasterSecret ∧
    (Dtls.GetSession hp decrypt d resp).2 =
      dtlsHandshakeToBytes hp dtlsHandshakeTypeClientHello d.Handshake.ClientSequence d.Handshake := by
  have h1b : (resp[0]?).getD 0 = 22 := by
    simpa [List.getD, dtlsContentTypeHandshake] using h1
  have h4b : ((nextRecord resp)[0]?).getD 0 = 22 := by
    simpa [List.getD, dtlsContentTypeHandshake] using h4
  have h3b : ((recordContent resp)[0]?).getD 0 = dtlsHandshakeTypeServerHello := by
    simpa [List.getD] using h3
  have h6b : ((recordContent (nextRecord resp))[0]?).getD 0 = dtlsHandshakeTypeServerHelloDone := by
    simpa [List.getD] using h6
  have h4c : ((resp.drop (contentLen resp + 13))[0]?).getD 0 = 22 := by
    simpa [nextRecord] using h4b
  have h5c : 13 + contentLen (resp.drop (contentLen resp + 13)) ≤
      (resp.drop (contentLen resp + 13)).length := by
    simpa [nextRecord] using h5
  have h6c : ((recordContent (resp.drop (contentLen resp + 13)))[0]?).getD 0 =
      dtlsHandshakeTypeServerHelloDone := by
    simpa [nextRecord] using h6b
  simp [Dtls.GetSession, parsePacket_plain, henc, h2, h1, h1b,
    dtlsContentTypeHandshake, dtlsHandshakeParse, h3b,
    dtlsHandshakeTypeServerHello, dtlsHandshakeTypeServerHelloDone,
    dtlsHandshakeTypeHelloVerifyRequest, dtlsHandshakeTypeFinished]
  have h4d : (resp[contentLen resp + 13]?).getD 0 = 22 := by simpa using h4c
  have h6d : ((recordContent (resp.drop (contentLen resp + 13)))[0]?).getD 0 = 14 := by
    simpa [dtlsHandshakeTypeServerHelloDone] using h6c
  rw [parsePacket_plain hp decrypt _ _ rfl h5c]
  simp [dtlsHandshakeParse, h4c, h4d, h6c, h6d, dtlsContentTypeHandshake,
    dtlsHandshakeTypeServerHello, dtlsHandshakeTypeServerHelloDone,
    dtlsHandshakeTypeHelloVerifyRequest, dtlsHandshakeTypeFinished,
    handshakeMsg, fragLen, nextRecord]

/-- `SendClientKeyExchange` projections: the ClientKeyExchange is
appended to `Messages`; nothing else relevant changes. -/
theorem sendClientKeyExchange_effect (hp : HashPrims) (d : Dtls) :
    (Dtls.SendClientKeyExchange hp d).1.Handshake.Messages =
      d.Handshake.Messages ++ (Dtls.SendClientKeyExchange hp d).2 ∧
    (Dtls.SendClientKeyExchange hp d).1.ServerEncrypt = d.ServerEncrypt ∧
    (Dtls.SendClientKeyExchange hp d).1.Handshake.MasterSecret = d.Handshake.MasterSecret ∧
    (Dtls.SendClientKeyExchange hp d).1.Handshake.PreMasterSecret = d.Handshake.PreMasterSecret ∧
    (Dtls.SendClientKeyExchange hp d).2 =
      dtlsHandshakeToBytes hp dtlsHandshakeTypeClientKeyExchange
        d.Handshake.ClientSequence d.Handshake := by
  simp [Dtls.SendClientKeyExchange]

/-- `SendFinished` projections: the client Finished — whose verify data
hashes the `Messages` gathered so far — is appended to `Messages`
before the server ChangeCipherSpec and encrypted Finished are parsed,
and neither parse touches `Messages` or the master secret. -/
theorem sendFinished_effect (hp : HashPrims) (decrypt : List Nat → Nat → Option (List Nat))
    (d : Dtls) (resp : List Nat) (henc : d.ServerEncrypt = false)
    (h1 : resp.getD 0 0 = dtlsContentTypeChangeCipherSpec)
    (h2 : 13 + contentLen resp ≤ resp.length)
    (hsrv : ∀ pt, decrypt (recordContent (nextRecord resp)) ((nextRecord resp).getD 0 0) = some pt →
      pt.getD 0 0 = dtlsHandshakeTypeFinished) :
    (Dtls.SendFinished hp decrypt d resp).1.Handshake.Messages =
      d.Handshake.Messages ++ (Dtls.SendFinished hp decrypt d resp).2 ∧
    (Dtls.SendFinished hp decrypt d resp).1.Handshake.MasterSecret = d.Handshake.MasterSecret ∧
    (Dtls.SendFinished hp decrypt d resp).2 =
      dtlsHandshakeToBytes hp dtlsHandshakeTypeFinished d.Handshake.ClientSequence d.Handshake := by
  have hsrv2 : ∀ pt, decrypt (recordContent (resp.drop (contentLen resp + 13)))
      ((resp.drop (contentLen resp + 13)).getD 0 0) = some pt →
      pt.getD 0 0 = dtlsHandshakeTypeFinished := by
    simpa [nextRecord] using hsrv
  have h1b : (resp[0]?).getD 0 = 20 := by
    simpa [List.getD, dtlsContentTypeChangeCipherSpec] using h1
  simp only [Dtls.SendFinished]
  simp [parsePacket_plain, henc, h2, h1, h1b, dtlsContentTypeHandshake,
    dtlsContentTypeChangeCipherSpec]
  rw [(parsePacket_keeps_messages hp decrypt _ _ rfl hsrv2).1,
      (parsePacket_keeps_messages hp decrypt _ _ rfl hsrv2).2]
  simp

/-- The PRF loop reaches the requested length as long as the fuel covers
the missing bytes (HMAC-SHA256 contributes 32 bytes per round). -/
theorem dtlsPrfLoop_length (hp : HashPrims)
    (h32 : ∀ k m, (hp.hmacSha256 k m).length = 32) (secret a0 : List Nat) (length : Nat) :
    ∀ (fuel : Nat) (aPrev ret : List Nat), length ≤ ret.length + fuel →
      length ≤ (dtlsPrfLoop hp secret a0 length fuel aPrev ret).length := by
  intro fuel
  induction fuel with
  | zero =>
    intro aPrev ret h
    simpa [dtlsPrfLoop] using h
  | succ n ih =>
    intro aPrev ret h
    simp only [dtlsPrfLoop]
    by_cases hlt : ret.length < length
    · rw [if_pos hlt]
      apply ih
      simp [h32]
      omega
    · rw [if_neg hlt]
      omega

/-- With a real HMAC-SHA256 the PRF output has exactly the requested
length. -/
theorem dtlsPrf_length (hp : HashPrims)
    (h32 : ∀ k m, (hp.hmacSha256 k m).length = 32)
    (secret label seed : List Nat) (length : Nat) :
    (dtlsPrf hp secret label seed length).length = length := by
  have h := dtlsPrfLoop_length hp h32 secret (label ++ seed) length length
    (label ++ seed) [] (by simp)
  simp only [dtlsPrf, List.length_take]
  omega

/-- Results of the client handshake driver (`processHandshake`): the
final state, the state entering `SendFinished`, and the sent second
ClientHello, ClientKeyExchange and Finished messages. -/
structure HandshakeRun where
  final : Dtls
  preFin : Dtls
  ch2 : List Nat
  cke : List Nat
  fin : List Nat

/-- Initial state of `DtlsDial`: zeroed counters and flags, the PSK
identity, the pre-master secret derived from the PSK and a fresh client
random. -/
def dtlsInit (identity psk clientRandom : List Nat) : Dtls :=
  ⟨0, 0, 0, 0, [], [], [], [], false, false,
    ⟨0, 0, identity, [], [], clientRandom, [], DtlsPreMasterSecretFromPSK psk, [], [], false⟩⟩

/-- The client handshake steps of `processHandshake`, driven by the
received datagrams: HelloVerifyRequest, then ServerHello +
ServerHelloDone in one datagram, then server ChangeCipherSpec +
encrypted Finished in one datagram. -/
def handshakeRun (hp : HashPrims) (decrypt : List Nat → Nat → Option (List Nat))
    (identity psk clientRandom hvrResp shResp finResp : List Nat) : HandshakeRun :=
  let r1 := Dtls.GetCookie hp decrypt (dtlsInit identity psk clientRandom) hvrResp
  let r2 := Dtls.GetSession hp decrypt r1.1 shResp
  let r3 := Dtls.SendClientKeyExchange hp r2.1
  let s4 := (Dtls.SendChangeCipherSpec r3.1).1
  let s5 := Dtls.GenerateSecurityParams hp s4
  let r6 := Dtls.SendFinished hp decrypt s5 finResp
  ⟨r6.1, s5, r2.2, r3.2, r6.2⟩

/-- C2: after the handshake completes, the hashable `Messages` buffer of
the state entering `SendFinished` is exactly the second ClientHello
(with cookie), ServerHello, ServerHelloDone and ClientKeyExchange in
this order — the initial ClientHello and the HelloVerifyRequest are
excluded — so the client verify data equals
`PRF(master, "client finished", SHA256(M), 12)` over exactly that `M`,
is 12 bytes long for a 32-byte HMAC, and the server verify data is
computed over `M` with the client Finished appended. -/
theorem handshake_verify_data (hp : HashPrims)
    (decrypt : List Nat → Nat → Option (List Nat))
    (identity psk clientRandom hvrResp shResp finResp : List Nat)
    (hhvr1 : hvrResp.getD 0 0 = dtlsContentTypeHandshake)
    (hhvr2 : 13 + contentLen hvrResp ≤ hvrResp.length)
    (hhvr3 : (recordContent hvrResp).getD 0 0 = dtlsHandshakeTypeHelloVerifyRequest)
    (hsh1 : shResp.getD 0 0 = dtlsContentTypeHandshake)
    (hsh2 : 13 + contentLen shResp ≤ shResp.length)
    (hsh3 : (recordContent shResp).getD 0 0 = dtlsHandshakeTypeServerHello)
    (hshd1 : (nextRecord shResp).getD 0 0 = dtlsContentTypeHandshake)
    (hshd2 : 13 + contentLen (nextRecord shResp) ≤ (nextRecord shResp).length)
    (hshd3 : (recordContent (nextRecord shResp)).getD 0 0 = dtlsHandshakeTypeServerHelloDone)
    (hccs1 : finResp.getD 0 0 = dtlsContentTypeChangeCipherSpec)
    (hccs2 : 13 + contentLen finResp ≤ finResp.length)
    (hsrv : ∀ pt, decrypt (recordContent (nextRecord finResp))
        ((nextRecord finResp).getD 0 0) = some pt →
      pt.getD 0 0 = dtlsHandshakeTypeFinished) :
    (handshakeRun hp decrypt identity psk clientRandom hvrResp shResp finResp).preFin.Handshake.Messages =
      (handshakeRun hp decrypt identity psk clientRandom hvrResp shResp finResp).ch2 ++
        (handshakeMsg shResp ++ (handshakeMsg (nextRecord shResp) ++
          (handshakeRun hp decrypt identity psk clientRandom hvrResp shResp finResp).cke)) ∧
    GenerateClientVerifyData hp
        (handshakeRun hp decrypt identity psk clientRandom hvrResp shResp finResp).preFin.Handshake =
      dtlsPrf hp
        (handshakeRun hp decrypt identity psk clientRandom hvrResp shResp finResp).preFin.Handshake.MasterSecret
        clientFinishedLabel
        (hp.sha256 ((handshakeRun hp decrypt identity psk clientRandom hvrResp shResp finResp).ch2 ++
          (handshakeMsg shResp ++ (handshakeMsg (nextRecord shResp) ++
            (handshakeRun hp decrypt identity psk clientRandom hvrResp shResp finResp).cke)))) 12 ∧
    ((∀ k m, (hp.hmacSha256 k m).length = 32) →
      (GenerateClientVerifyData hp
        (handshakeRun hp decrypt identity psk clientRandom hvrResp shResp finResp).preFin.Handshake).length = 12) ∧
    (handshakeRun hp decrypt identity psk clientRandom hvrResp shResp finResp).final.Handshake.Messages =
      (handshakeRun hp decrypt identity psk clientRandom hvrResp shResp finResp).preFin.Handshake.Messages ++
        (handshakeRun hp decrypt identity psk clientRandom hvrResp shResp finResp).fin ∧
    GenerateServerVerifyData hp
        (handshakeRun hp decrypt identity psk clientRandom hvrResp shResp finResp).final.Handshake =
      dtlsPrf hp
        (handshakeRun hp decrypt identity psk clientRandom hvrResp shResp finResp).preFin.Handshake.MasterSecret
        serverFinishedLabel
        (hp.sha256 ((handshakeRun hp decrypt identity psk clientRandom hvrResp shResp finResp).preFin.Handshake.Messages ++
          (handshakeRun hp decrypt identity psk clientRandom hvrResp shResp finResp).fin)) 12 := by
  obtain ⟨g1, g2, g3, g4⟩ :=
    getCookie_effect hp decrypt (dtlsInit identity psk clientRandom) hvrResp rfl hhvr1 hhvr2 hhvr3
  obtain ⟨s1, hs2, hs3, hs4, hs5⟩ :=
    getSession_effect hp decrypt
      (Dtls.GetCookie hp decrypt (dtlsInit identity psk clientRandom) hvrResp).1 shResp g2
      hsh1 hsh2 hsh3 hshd1 hshd2 hshd3
  obtain ⟨k1, k2, k3, k4, k5⟩ :=
    sendClientKeyExchange_effect hp
      (Dtls.GetSession hp decrypt
        (Dtls.GetCookie hp decrypt (dtlsInit identity psk clientRandom) hvrResp).1 shResp).1
  have henc5 :
      (Dtls.GenerateSecurityParams hp
        (Dtls.SendChangeCipherSpec
          (Dtls.SendClientKeyExchange hp
            (Dtls.GetSession hp decrypt
              (Dtls.GetCookie hp decrypt (dtlsInit identity psk clientRandom) hvrResp).1
              shResp).1).1).1).ServerEncrypt = false := by
    simp only [Dtls.GenerateSecurityParams, Dtls.SendChangeCipherSpec]
    exact hs2 ▸ k2
  obtain ⟨f1, f2, f3⟩ :=
    sendFinished_effect hp decrypt
      (Dtls.GenerateSecurityParams hp
        (Dtls.SendChangeCipherSpec
          (Dtls.SendClientKeyExchange hp
            (Dtls.GetSession hp decrypt
              (Dtls.GetCookie hp decrypt (dtlsInit identity psk clientRandom) hvrResp).1
              shResp).1).1).1)
      finResp henc5 hccs1 hccs2 hsrv
  have hm5 :
      (Dtls.GenerateSecurityParams hp
        (Dtls.SendChangeCipherSpec
          (Dtls.SendClientKeyExchange hp
            (Dtls.GetSession hp decrypt
              (Dtls.GetCookie hp decrypt (dtlsInit identity psk clientRandom) hvrResp).1
              shResp).1).1).1).Handshake.Messages =
      (Dtls.GetSession hp decrypt
        (Dtls.GetCookie hp decrypt (dtlsInit identity psk clientRandom) hvrResp).1 shResp).2 ++
        (handshakeMsg shResp ++ (handshakeMsg (nextRecord shResp) ++
          (Dtls.SendClientKeyExchange hp
            (Dtls.GetSession hp decrypt
              (Dtls.GetCookie hp decrypt (dtlsInit identity psk clientRandom) hvrResp).1
              shResp).1).2)) := by
    simp only [Dtls.GenerateSecurityParams, Dtls.SendChangeCipherSpec]
    rw [k1, s1, g1]
    simp [dtlsInit, List.append_assoc]
  refine ⟨?_, ?_, ?_, ?_, ?_⟩
  · simpa only [handshakeRun] using hm5
  · simp only [handshakeRun, GenerateClientVerifyData]
    rw [hm5]
  · intro h32
    simp only [handshakeRun, GenerateClientVerifyData]
    exact dtlsPrf_length hp h32 _ _ _ 12
  · simpa only [handshakeRun] using f1
  · simp only [handshakeRun, GenerateServerVerifyData]
    rw [f1, f2]

/-- A decryption oracle whose plaintexts always carry the Finished
handshake type. -/
def wDecrypt : List Nat → Nat → Option (List Nat) := fun _ _ => some [dtlsHandshakeTypeFinished]

/-- A complete HelloVerifyRequest record (content length 1). -/
def wHvr : List Nat := [22, 254, 253, 0, 0, 0, 0, 0, 0, 0, 0, 0, 1, 3]

/-- A ServerHello record followed by a ServerHelloDone record. -/
def wSh : List Nat :=
  [22, 254, 253, 0, 0, 0, 0, 0, 0, 0, 0, 0, 1, 2,
   22, 254, 253, 0, 0, 0, 0, 0, 0, 0, 0, 0, 1, 14]

/-- A ChangeCipherSpec record followed by an encrypted Finished record. -/
def wFin : List Nat :=
  [20, 254, 253, 0, 0, 0, 0, 0, 0, 0, 0, 0, 1, 1,
   22, 254, 253, 0, 1, 0, 0, 0, 0, 0, 0, 0, 4, 9, 9, 9, 9]

/-- C2 witness: running the handshake driver on concrete datagrams, the
client verify data is 12 bytes long. -/
theorem handshake_verify_data_witness :
    (GenerateClientVerifyData dummyHash
      (handshakeRun dummyHash wDecrypt [1] [2, 3] (List.replicate 32 7)
        wHvr wSh wFin).preFin.Handshake).length = 12 :=
  (handshake_verify_data dummyHash wDecrypt [1] [2, 3] (List.replicate 32 7) wHvr wSh wFin
    (by decide) (by decide) (by decide)
    (by decide) (by decide) (by decide)
    (by decide) (by decide) (by decide)
    (by decide) (by decide)
    (by
      intro pt h
      simp only [wDecrypt, Option.some.injEq] at h
      subst h
      rfl)).2.2.1 (fun _ _ => rfl)

end Inventoryd
